import Mathlib

/-!
Snake and Ladder (FLTK): a shallow embedding of `snake.cpp` and `SoundFX.cpp`

The definitions follow the C++ source function by function.  C++ `int` values are
modelled as `Int`, `unsigned int` values as `Nat` reduced modulo `2^32`, and every
array or vector subscript is an `Option`-valued lookup, so that an out-of-bounds
access (undefined behaviour in C++) shows up as `none`.
-/

namespace SnakeLadder

/-! ## Machine integers -/

/-- Conversion of an `int` to `unsigned int` (32 bits): reduction modulo `2^32`. -/
def toUInt (x : Int) : Nat := (x % 4294967296).toNat

/-- Conversion of an `unsigned int` to `int` (32 bits, two's complement). -/
def toInt (u : Nat) : Int :=
  if u % 4294967296 < 2147483648 then ((u % 4294967296 : Nat) : Int)
  else ((u % 4294967296 : Nat) : Int) - 4294967296

/-! ## Constants of `snake.cpp` (lines 27-35) -/

def MUSICFILENAME : String := "snake.wav"

def BOARD_SIZE : Int := 10
def SQUARE_SIZE : Int := 57
def BORDER_X : Int := 31
def BORDER_Y : Int := 31
def WINDOW_WIDTH : Int := BOARD_SIZE * SQUARE_SIZE + 200 + 2 * BORDER_X
def WINDOW_HEIGHT : Int := BOARD_SIZE * SQUARE_SIZE + 2 * BORDER_Y

/-- The C++ `Coord`: a pair `((x, y), (w, h))`. -/
abbrev Coord := (Int × Int) × (Int × Int)

/-! ## `SnakeLadderBoardWidget` (lines 293-392) -/

/-- The nested `struct Square`; the constructor's default `destination` is `-1`. -/
structure Square where
  x : Int
  y : Int
  number : Int
  destination : Int := -1
deriving DecidableEq, Repr

/-- The data members of `SnakeLadderBoardWidget` that the game logic reads:
`std::array<int, 100> positionMap` and `std::vector<Square> squares`. -/
structure SnakeLadderBoardWidget where
  positionMap : List Int
  squares : List Square
deriving DecidableEq, Repr

/-- The inner loop `for (int j = 0; j < BOARD_SIZE; ++j)` of `embedLogic` (lines 384-387):
one `push_back` per column, `square_number++` each time. -/
def pushRowForward (i : Int) (acc : List Square × Int) : List Square × Int :=
  (List.range BOARD_SIZE.toNat).foldl
    (fun st j =>
      (st.1 ++ [{ x := (j : Int) * SQUARE_SIZE + BORDER_X, y := i * SQUARE_SIZE + BORDER_Y,
                  number := st.2 }], st.2 + 1))
    acc

/-- The inner loop `for (int j = BOARD_SIZE - 1; j >= 0; --j)` of `embedLogic`
(lines 377-380). -/
def pushRowReverse (i : Int) (acc : List Square × Int) : List Square × Int :=
  (List.range BOARD_SIZE.toNat).reverse.foldl
    (fun st j =>
      (st.1 ++ [{ x := (j : Int) * SQUARE_SIZE + BORDER_X, y := i * SQUARE_SIZE + BORDER_Y,
                  number := st.2 }], st.2 + 1))
    acc

/-- Method `SnakeLadderBoardWidget::embedLogic` (lines 353-391): fill `positionMap` with the
identity, overwrite the twelve snake and ladder entries, then push the hundred squares
row by row from the bottom row (`i = 9`) up, alternating the direction. -/
def embedLogic (b : SnakeLadderBoardWidget) : SnakeLadderBoardWidget :=
  let m0 := (List.range b.positionMap.length).foldl (fun m i => m.set i (i : Int)) b.positionMap
  let m1 := m0.set 3 55
  let m2 := m1.set 11 49
  let m3 := m2.set 13 54
  let m4 := m3.set 21 57
  let m5 := m4.set 27 9
  let m6 := m5.set 36 2
  let m7 := m6.set 40 78
  let m8 := m7.set 47 15
  let m9 := m8.set 53 87
  let m10 := m9.set 74 31
  let m11 := m10.set 93 70
  let m12 := m11.set 95 41
  let rows := (List.range BOARD_SIZE.toNat).reverse.foldl
    (fun (st : (List Square × Int) × Bool) i =>
      ((if st.2 then pushRowReverse (i : Int) st.1 else pushRowForward (i : Int) st.1), !st.2))
    ((b.squares, 1), false)
  { positionMap := m12, squares := rows.1.1 }

/-- The constructor of `SnakeLadderBoardWidget` (lines 346-351): the hundred entries of
`positionMap` start indeterminate (here `0`, each one is overwritten by `embedLogic`),
`squares` starts empty, and `embedLogic` is run. -/
def SnakeLadderBoardWidget.new : SnakeLadderBoardWidget :=
  embedLogic { positionMap := List.replicate 100 0, squares := [] }

/-- Method `SnakeLadderBoardWidget::getDestination` (lines 311-314):
`return positionMap[pos - 1] + 1;`.  The subscript is converted to `size_t`, so a
`pos` below 1 or above the array size is out of bounds (`none`). -/
def SnakeLadderBoardWidget.getDestination (b : SnakeLadderBoardWidget) (pos : Int) :
    Option Int :=
  if pos - 1 < 0 then none
  else (b.positionMap[(pos - 1).toNat]?).map (fun p => p + 1)

/-- Method `SnakeLadderBoardWidget::getPixelCoordinates` (lines 316-322). -/
def SnakeLadderBoardWidget.getPixelCoordinates (b : SnakeLadderBoardWidget) (pos : Int) :
    Option Coord :=
  if pos - 1 < 0 then none
  else
    match b.positionMap[(pos - 1).toNat]? with
    | none => none
    | some p =>
      if p < 0 then none
      else
        match b.squares[p.toNat]? with
        | none => none
        | some sq => some ((sq.x + 5, sq.y + 5), (SQUARE_SIZE - 20, SQUARE_SIZE - 20))

/-- The interface `AbstractBoard` (lines 275-291): the two virtual queries the game
widget makes through its `gameBoard` pointer. -/
structure AbstractBoard where
  getDestination : Int → Option Int
  getPixelCoordinates : Int → Option Coord

/-- The board the game uses: `CreateBoard` (lines 599-603) returns the singleton
`SnakeLadderBoardWidget`. -/
def CreateBoard : AbstractBoard :=
  { getDestination := SnakeLadderBoardWidget.new.getDestination
    getPixelCoordinates := SnakeLadderBoardWidget.new.getPixelCoordinates }

/-! ## `DiceWidget` (lines 37-103) -/

/-- An `Fl_PNG_Image`, identified by the file it was loaded from. -/
structure Fl_PNG_Image where
  filename : String
deriving DecidableEq, Repr

/-- The data members of `DiceWidget` the game reads: the bounds of
`std::uniform_int_distribution<> dist`, the six-element array `diceFaces` (an entry
is `none` while the pointer is not set) and `currentFace` (`none` is `nullptr`). -/
structure DiceWidget where
  dist : Int × Int
  diceFaces : List (Option Fl_PNG_Image)
  currentFace : Option Fl_PNG_Image
deriving DecidableEq, Repr

/-- The constructor of `DiceWidget` (lines 48-60): `dist(1, 6)`, `currentFace(nullptr)`,
and the loop `diceFaces[i] = new Fl_PNG_Image("dice_" + to_string(i + 1) + ".png")` over
`i = 0 .. max_size() - 1`. -/
def DiceWidget.new : DiceWidget :=
  let empty : List (Option Fl_PNG_Image) := List.replicate 6 none
  { dist := (1, 6)
    diceFaces := (List.range empty.length).foldl
      (fun fs i => fs.set i (some { filename := "dice_" ++ toString (i + 1) ++ ".png" })) empty
    currentFace := none }

/-- Method `DiceWidget::setDiceImage` (lines 62-65): `currentFace = diceFaces[pos - 1];` with
`pos` an `unsigned int`, so `pos - 1` wraps around at `pos = 0`. -/
def DiceWidget.setDiceImage (d : DiceWidget) (pos : Nat) : Option DiceWidget :=
  match d.diceFaces[toUInt ((pos : Int) - 1)]? with
  | none => none
  | some face => some { d with currentFace := face }

/-- Method `DiceWidget::roll` (lines 96-102).  The argument `drawn` is the value `dist(gen)`
hands back; the library promises `dist.1 ≤ drawn ≤ dist.2`.  The result is the roll
`r` together with the updated widget. -/
def DiceWidget.roll (d : DiceWidget) (drawn : Int) : Option (Nat × DiceWidget) :=
  let r := toUInt drawn
  match d.setDiceImage r with
  | none => none
  | some d1 => some (r, d1)

/-- The loop of `DiceWidget::~DiceWidget` (lines 71-72),
`for (int i = 0; i < diceFaces.max_size(); ++i, delete diceFaces[i]) ;`, from the loop
variable `i` on.  The body is empty; the iteration expression first increments `i` and
then evaluates `delete diceFaces[i]` at the incremented `i`.  `deleted` collects the
subscripts at which `delete diceFaces[i]` was evaluated, in order.  The comparison
converts `i` to `size_t`.  The first argument is fuel; `none` means it ran out. -/
def DiceWidget.destructorLoop (d : DiceWidget) : Nat → Int → List Int → Option (List Int)
  | 0, _, _ => none
  | fuel + 1, i, deleted =>
    if (i % 18446744073709551616).toNat < d.diceFaces.length then
      DiceWidget.destructorLoop d fuel (i + 1) (deleted ++ [i + 1])
    else some deleted

/-- Method `DiceWidget::~DiceWidget` (lines 68-73): the subscripts of `diceFaces` whose
image is deleted, in order. -/
def DiceWidget.destructor (d : DiceWidget) (fuel : Nat) : Option (List Int) :=
  DiceWidget.destructorLoop d fuel 0 []

/-- The read `diceFaces[i]` of the six-element array at an `int` subscript; `none` is
an out-of-bounds read. -/
def DiceWidget.faceAt (d : DiceWidget) (i : Int) : Option (Option Fl_PNG_Image) :=
  if i < 0 then none else d.diceFaces[i.toNat]?

/-! ## `PlayerWidget` (lines 107-144) and `ScoreBoardWidget` (lines 397-439) -/

/-- The data members of `PlayerWidget` that the game logic touches. -/
structure PlayerWidget where
  position : Int
  x : Int
  y : Int
  w : Int
  h : Int
deriving DecidableEq, Repr

/-- The constructor of `PlayerWidget` (lines 115-121):
`x(0), y(0), w(SQUARE_SIZE - 10), h(SQUARE_SIZE - 10), position(1)`. -/
def PlayerWidget.new : PlayerWidget :=
  { position := 1, x := 0, y := 0, w := SQUARE_SIZE - 10, h := SQUARE_SIZE - 10 }

/-- Method `PlayerWidget::updatePosition` (line 128). -/
def PlayerWidget.updatePosition (p : PlayerWidget) (pos : Int) : PlayerWidget :=
  { p with position := pos }

/-- Method `PlayerWidget::getPosition` (line 130). -/
def PlayerWidget.getPosition (p : PlayerWidget) : Int := p.position

/-- Method `PlayerWidget::updateCoordinates` (lines 132-138). -/
def PlayerWidget.updateCoordinates (p : PlayerWidget) (x y w h : Int) : PlayerWidget :=
  { p with x := x, y := y, w := w, h := h }

/-- The message held by `ScoreBoardWidget`. -/
structure ScoreBoardWidget where
  msg : String
deriving DecidableEq, Repr

/-- The constructor of `ScoreBoardWidget` (lines 430-438): `msg = ""`. -/
def ScoreBoardWidget.new : ScoreBoardWidget := { msg := "" }

/-- Method `ScoreBoardWidget::setMessage` (lines 414-417). -/
def ScoreBoardWidget.setMessage (_s : ScoreBoardWidget) (message : String) :
    ScoreBoardWidget :=
  { msg := message }

/-! ## `SnakeLadderBoardGameWidget` (lines 501-646) -/

/-- The `enum PLAYER` (lines 639-644). -/
inductive PLAYER where
  | RED
  | GREEN
  | BLUE
deriving DecidableEq, Repr

/-- The target of the pointer `currentPlayer`: one of the two player widgets. -/
inductive PlayerPtr where
  | playerA
  | playerB
deriving DecidableEq, Repr

/-- The event code `FL_PUSH` of FLTK (`FL/Enumerations.H`, not part of the repository):
a mouse button press. -/
def FL_PUSH : Int := 1

/-- The data members of `BoardGameWidget` and `SnakeLadderBoardGameWidget`; the board
is immutable after construction and is passed to `handle` separately. -/
structure SnakeLadderBoardGameWidget where
  dice : DiceWidget
  scoreboard : ScoreBoardWidget
  gameDone : Bool
  rollStr : String
  turn : Bool
  playerA : PlayerWidget
  playerB : PlayerWidget
  currentPlayer : PlayerPtr
  coordinate_playerA : Coord
  coordinate_playerB : Coord
  currentPlayerColor : PLAYER
deriving DecidableEq, Repr

/-- Dereference `currentPlayer`. -/
def SnakeLadderBoardGameWidget.current (g : SnakeLadderBoardGameWidget) : PlayerWidget :=
  match g.currentPlayer with
  | PlayerPtr.playerA => g.playerA
  | PlayerPtr.playerB => g.playerB

/-- The assignment `currentPlayer->updatePosition(newpos)` (line 574). -/
def SnakeLadderBoardGameWidget.updateCurrent (g : SnakeLadderBoardGameWidget)
    (newpos : Int) : SnakeLadderBoardGameWidget :=
  match g.currentPlayer with
  | PlayerPtr.playerA => { g with playerA := g.playerA.updatePosition newpos }
  | PlayerPtr.playerB => { g with playerB := g.playerB.updatePosition newpos }

/-- The conversion of `n * 0.66` (a `double`) to the `int` parameter of
`updateCoordinates`: truncation toward zero of `66 n / 100`. -/
def scale066 (n : Int) : Int := (n * 66).tdiv 100

/-- Method `SnakeLadderBoardGameWidget::PositionPlayersOnBoard` (lines 623-637); the result is
the pair of updated widgets `(pA, pB)`. -/
def PositionPlayersOnBoard (cA cB : Coord) (pA pB : PlayerWidget) :
    PlayerWidget × PlayerWidget :=
  let xyA := cA.1
  let xyB := cB.1
  if xyA.1 = xyB.1 ∧ xyA.2 = xyB.2 then
    (pA.updateCoordinates (cA.1.1 - 5) cA.1.2 (scale066 cA.2.1) (scale066 cA.2.2),
     pB.updateCoordinates (cB.1.1 + 25) cB.1.2 (scale066 cB.2.1) (scale066 cB.2.2))
  else
    (pA.updateCoordinates cA.1.1 cA.1.2 cA.2.1 cA.2.2,
     pB.updateCoordinates cB.1.1 cB.1.2 cB.2.1 cB.2.2)

/-- Method `SnakeLadderBoardGameWidget::AddPlayer` (lines 518-526): the two new players, placed
side by side on the cell of square 1, and the initial value of `currentPlayer`. -/
def AddPlayer (gameBoard : AbstractBoard) :
    Option (PlayerWidget × PlayerWidget × PlayerPtr) :=
  match gameBoard.getPixelCoordinates 1 with
  | none => none
  | some coords =>
    some (PlayerWidget.new.updateCoordinates (coords.1.1 - 5) coords.1.2
            (scale066 coords.2.1) (scale066 coords.2.2),
          PlayerWidget.new.updateCoordinates (coords.1.1 + 25) coords.1.2
            (scale066 coords.2.1) (scale066 coords.2.2),
          PlayerPtr.playerA)

/-- The state after the constructors (lines 447-451 and 505-508: `gameDone(false)`,
`turn(false)`, `currentPlayerColor(RED)`) and `CreateGame` (lines 461-468), which
creates the dice, the score board and, through `AddPlayer`, the players. -/
def CreateGame (gameBoard : AbstractBoard) : Option SnakeLadderBoardGameWidget :=
  match AddPlayer gameBoard with
  | none => none
  | some (pA, pB, cur) =>
    some { dice := DiceWidget.new
           scoreboard := ScoreBoardWidget.new
           gameDone := false
           rollStr := ""
           turn := false
           playerA := pA
           playerB := pB
           currentPlayer := cur
           coordinate_playerA := ((0, 0), (0, 0))
           coordinate_playerB := ((0, 0), (0, 0))
           currentPlayerColor := PLAYER.RED }

/-- Lines 539-575 of `handle`: the bound check, the board query, the win check and the
score board message, for the position `pos` of the current player and the roll
`_throw`.  `pos + _throw` is computed in `unsigned int`. -/
def moveCurrent (gameBoard : AbstractBoard) (g : SnakeLadderBoardGameWidget)
    (pos : Int) (_throw : Nat) : Option SnakeLadderBoardGameWidget :=
  let total : Nat := (toUInt pos + _throw) % 4294967296
  if total > 100 then
    let whoseTurn := if g.currentPlayerColor = PLAYER.GREEN then "Green: " else "Red: "
    let rollStr := whoseTurn ++ "Dice roll: " ++ toString _throw
    some { g with rollStr := rollStr, scoreboard := g.scoreboard.setMessage rollStr }
  else
    match gameBoard.getDestination (toInt total) with
    | none => none
    | some newpos =>
      if newpos = 100 then
        let whoWin := if g.currentPlayerColor = PLAYER.GREEN then "Green wins" else "Red wins"
        let rollStr := "\nCongratulations!!\n" ++ whoWin
        some ({ g with rollStr := rollStr, scoreboard := g.scoreboard.setMessage rollStr,
                       gameDone := true }.updateCurrent newpos)
      else
        let rollStr :=
          if toUInt newpos > total then "Wow!!great luck"
          else if toUInt newpos < total then "Oops!! bad luck"
          else
            (if g.currentPlayerColor = PLAYER.GREEN then "Green: " else "Red: ")
              ++ "Dice roll: " ++ toString _throw
        some ({ g with rollStr := rollStr,
                       scoreboard := g.scoreboard.setMessage rollStr }.updateCurrent newpos)

/-- Method `SnakeLadderBoardGameWidget::handle` (lines 528-589).  `drawn` is the value the
dice distribution produces if the dice is rolled.  The result is the returned `int`
(`1` for a handled press, `0` from `Fl_Widget::handle` otherwise) with the new state;
`none` stands for an out-of-bounds access.  The call `window->redraw()` only schedules a
repaint and leaves these data members alone. -/
def handle (gameBoard : AbstractBoard) (g : SnakeLadderBoardGameWidget) (event : Int)
    (drawn : Int) : Option (Int × SnakeLadderBoardGameWidget) :=
  if g.gameDone = false ∧ event = FL_PUSH then
    let pos := g.current.getPosition
    match g.dice.roll drawn with
    | none => none
    | some (_throw, dice) =>
      match moveCurrent gameBoard { g with dice := dice } pos _throw with
      | none => none
      | some g1 =>
        match gameBoard.getPixelCoordinates g1.playerA.getPosition,
              gameBoard.getPixelCoordinates g1.playerB.getPosition with
        | some cA, some cB =>
          let pp := PositionPlayersOnBoard cA cB g1.playerA g1.playerB
          let turn := !g1.turn
          some (1, { g1 with coordinate_playerA := cA
                             coordinate_playerB := cB
                             playerA := pp.1
                             playerB := pp.2
                             turn := turn
                             currentPlayer :=
                               if turn then PlayerPtr.playerB else PlayerPtr.playerA
                             currentPlayerColor :=
                               if turn then PLAYER.GREEN else PLAYER.RED })
        | _, _ => none
  else some (0, g)

/-- The states the game can be in: the state after `CreateGame`, and every state that
`handle` produces from one of them for some event and some dice value in `1..6`.  The
index counts the handled presses (the calls that returned `1`). -/
inductive ReachableIn : Nat → SnakeLadderBoardGameWidget → Prop where
  | init (g : SnakeLadderBoardGameWidget) : CreateGame CreateBoard = some g → ReachableIn 0 g
  | press (n : Nat) (g g1 : SnakeLadderBoardGameWidget) (event drawn : Int) :
      ReachableIn n g → 1 ≤ drawn → drawn ≤ 6 →
      handle CreateBoard g event drawn = some (1, g1) → ReachableIn (n + 1) g1
  | ignored (n : Nat) (g g1 : SnakeLadderBoardGameWidget) (event drawn : Int) :
      ReachableIn n g → 1 ≤ drawn → drawn ≤ 6 →
      handle CreateBoard g event drawn = some (0, g1) → ReachableIn n g1

/-- A state is reachable when it is reachable with some number of handled presses. -/
def Reachable (g : SnakeLadderBoardGameWidget) : Prop := ∃ n, ReachableIn n g

/-- Both players stand on one of the hundred squares and the dice holds the six faces
its constructor loaded: the states of a running game. -/
def WellFormed (g : SnakeLadderBoardGameWidget) : Prop :=
  (1 ≤ g.playerA.position ∧ g.playerA.position ≤ 100) ∧
  (1 ≤ g.playerB.position ∧ g.playerB.position ≤ 100) ∧
  g.dice.diceFaces = DiceWidget.new.diceFaces

instance (g : SnakeLadderBoardGameWidget) : Decidable (WellFormed g) := by
  unfold WellFormed; infer_instance

/-! ## `SnakeLadderGameSound::playSound_linux` (lines 211-271) -/

/-- The system calls the playback loop makes, in the order it makes them. -/
inductive SoundOp where
  | openFile (filename : String)
  | read
  | lseekStart
  | pcmWrite
  | readError
  | pcmDrain
  | pcmClose
  | free
deriving DecidableEq, Repr

/-- The state of the playback loop: the calls made so far and whether control is still
inside `while (true)`. -/
structure PlayState where
  trace : List SoundOp
  inLoop : Bool
deriving DecidableEq, Repr

/-- One iteration of the `while (true)` loop (lines 247-263) for the value `bytes_read`
that `read` returned: `0` seeks back to the start and continues, a negative value
reports the error and breaks, anything else is written to the PCM device. -/
def loopBody (st : PlayState) (bytes_read : Int) : PlayState :=
  if st.inLoop = false then st
  else if bytes_read = 0 then
    { trace := st.trace ++ [SoundOp.read, SoundOp.lseekStart], inLoop := true }
  else if bytes_read < 0 then
    { trace := st.trace ++ [SoundOp.read, SoundOp.readError], inLoop := false }
  else
    { trace := st.trace ++ [SoundOp.read, SoundOp.pcmWrite], inLoop := true }

/-- The loop of `playSound_linux` run against the successive results `reads` of the
`read` calls, starting after `open(m_filename.c_str(), O_RDONLY)` (line 246). -/
def playLoop (m_filename : String) (reads : List Int) : PlayState :=
  reads.foldl loopBody { trace := [SoundOp.openFile m_filename], inLoop := true }

/-- Method `playSound_linux` once the PCM device is open (the `else` branch, lines 229-268):
the loop, followed after a `break` by `snd_pcm_drain`, `snd_pcm_close`, `free`. -/
def playSound_linux (m_filename : String) (reads : List Int) : PlayState :=
  let st := playLoop m_filename reads
  if st.inLoop then st
  else { st with trace := st.trace ++ [SoundOp.pcmDrain, SoundOp.pcmClose, SoundOp.free] }

/-- The sound driver of the game: `BoardGameWidget` constructs it as
`new SnakeLadderGameSound(MUSICFILENAME)` (line 450), and `playSound` (lines 172-182)
runs `playSound_linux` on it. -/
def playSound (reads : List Int) : PlayState := playSound_linux MUSICFILENAME reads

/-- The calls one non-negative `read` result gives rise to. -/
def opsOfRead (bytes_read : Int) : List SoundOp :=
  if bytes_read = 0 then [SoundOp.read, SoundOp.lseekStart]
  else [SoundOp.read, SoundOp.pcmWrite]

/-- The player widget a `PlayerPtr` points to. -/
def SnakeLadderBoardGameWidget.playerAt (g : SnakeLadderBoardGameWidget) (p : PlayerPtr) :
    PlayerWidget :=
  match p with
  | PlayerPtr.playerA => g.playerA
  | PlayerPtr.playerB => g.playerB

/-- The other one of the two players. -/
def PlayerPtr.opponent : PlayerPtr → PlayerPtr
  | PlayerPtr.playerA => PlayerPtr.playerB
  | PlayerPtr.playerB => PlayerPtr.playerA

/-- The state `CreateGame` produces on the board of `CreateBoard`, written out. -/
def newGame : SnakeLadderBoardGameWidget :=
  { dice := DiceWidget.new
    scoreboard := ScoreBoardWidget.new
    gameDone := false
    rollStr := ""
    turn := false
    playerA := { position := 1, x := 31, y := 549, w := 24, h := 24 }
    playerB := { position := 1, x := 61, y := 549, w := 24, h := 24 }
    currentPlayer := PlayerPtr.playerA
    coordinate_playerA := ((0, 0), (0, 0))
    coordinate_playerB := ((0, 0), (0, 0))
    currentPlayerColor := PLAYER.RED }

/-- A state late in a game: Red, about to move, stands on square 97 and Green on 64. -/
def lateGame : SnakeLadderBoardGameWidget :=
  { newGame with
    playerA := { position := 97, x := 207, y := 36, w := 37, h := 37 }
    playerB := { position := 64, x := 207, y := 207, w := 37, h := 37 } }

/-- Feeding the dice values `rolls` to successive `FL_PUSH` events; `none` if one of the
calls of `handle` runs into an out-of-bounds access. -/
def pressAll (gameBoard : AbstractBoard) (g : SnakeLadderBoardGameWidget) :
    List Int → Option SnakeLadderBoardGameWidget
  | [] => some g
  | drawn :: rest =>
    match handle gameBoard g FL_PUSH drawn with
    | none => none
    | some (_, g1) => pressAll gameBoard g1 rest

/-- The cell of square `p` in the serpentine 10x10 layout, as the claim words it: row
`r = (p - 1) / 10` counted from the bottom, column `c = (p - 1) mod 10` counted in the
direction of travel, `j = c` on even rows and `9 - c` on odd rows; top-left corner
`(57 j + 36, 57 (9 - r) + 36)` and size `(37, 37)`. -/
def specPixel (p : Int) : Coord :=
  let r := (p - 1) / 10
  let c := (p - 1) % 10
  let j := if r % 2 = 0 then c else 9 - c
  ((57 * j + 36, 57 * (9 - r) + 36), (37, 37))

/-- The roll that moves a player on square `p` forward without meeting a snake: 1, or 2
when the next square is a snake head. -/
def safeRoll (p : Int) : Int :=
  if p + 1 = 28 ∨ p + 1 = 37 ∨ p + 1 = 48 ∨ p + 1 = 75 ∨ p + 1 = 94 ∨ p + 1 = 96 then 2
  else 1

/-- A finished game: Red has reached square 100 while Green waits on 64. -/
def wonGame : SnakeLadderBoardGameWidget :=
  { lateGame with
    playerA := { position := 100, x := 36, y := 36, w := 37, h := 37 }
    gameDone := true
    turn := true
    currentPlayer := PlayerPtr.playerB
    currentPlayerColor := PLAYER.GREEN
    rollStr := "\nCongratulations!!\nRed wins"
    scoreboard := { msg := "\nCongratulations!!\nRed wins" } }

/-- The lookup table as the claim lists it: the six ladder squares, the six snake
squares, and every other square mapped to itself. -/
def specDestination (pos : Int) : Int :=
  if pos = 4 then 56 else if pos = 12 then 50 else if pos = 14 then 55
  else if pos = 22 then 58 else if pos = 41 then 79 else if pos = 54 then 88
  else if pos = 28 then 10 else if pos = 37 then 3 else if pos = 48 then 16
  else if pos = 75 then 32 else if pos = 94 then 71 else if pos = 96 then 42
  else pos

/-- The squares that redirect the player, as the claim lists them. -/
def ladderSquares : List Int := [4, 12, 14, 22, 41, 54]

/-- The snake squares, as the claim lists them. -/
def snakeSquares : List Int := [28, 37, 48, 75, 94, 96]

/-- What the positions of a running game look like: neither player stands at the foot of
a ladder or on a snake head, nobody is on square 100 while `gameDone` is false, and
exactly one player is on square 100 once `gameDone` is true. -/
def Settled (g : SnakeLadderBoardGameWidget) : Prop :=
  specDestination g.playerA.position = g.playerA.position ∧
  specDestination g.playerB.position = g.playerB.position ∧
  (g.gameDone = false → g.playerA.position ≤ 99 ∧ g.playerB.position ≤ 99) ∧
  (g.gameDone = true →
    (g.playerA.position = 100 ∧ g.playerB.position ≤ 99) ∨
    (g.playerB.position = 100 ∧ g.playerA.position ≤ 99))

end SnakeLadder

namespace SoundFX

/-! ## `SoundFX::LoadSound` (`SoundFX.cpp`, lines 173-392) -/

/-- The `enum FormatType` of `SoundFX.hpp`. -/
inductive FormatType where
  | Int16
  | Float
  | IMA4
  | MSADPCM
deriving DecidableEq, Repr

/-- The OpenAL format codes `LoadSound` assigns to `format`.  In the OpenAL headers
(not part of the repository) `AL_NONE` is `0` and every `AL_FORMAT_*` code is a distinct
non-zero number, so `!format` holds exactly for `AL_NONE`. -/
inductive ALenum where
  | AL_NONE
  | AL_FORMAT_MONO16
  | AL_FORMAT_MONO_FLOAT32
  | AL_FORMAT_MONO_IMA4
  | AL_FORMAT_MONO_MSADPCM_SOFT
  | AL_FORMAT_STEREO16
  | AL_FORMAT_STEREO_FLOAT32
  | AL_FORMAT_STEREO_IMA4
  | AL_FORMAT_STEREO_MSADPCM_SOFT
  | AL_FORMAT_BFORMAT2D_16
  | AL_FORMAT_BFORMAT2D_FLOAT32
  | AL_FORMAT_BFORMAT3D_16
  | AL_FORMAT_BFORMAT3D_FLOAT32
deriving DecidableEq, Repr

/-! Constants of `sndfile.h` (not part of the repository). -/

def SF_FORMAT_SUBMASK : Nat := 0x0000FFFF
def SF_FORMAT_TYPEMASK : Nat := 0x0FFF0000
def SF_FORMAT_WAV : Nat := 0x010000
def SF_FORMAT_PCM_24 : Nat := 0x0003
def SF_FORMAT_PCM_32 : Nat := 0x0004
def SF_FORMAT_FLOAT : Nat := 0x0006
def SF_FORMAT_DOUBLE : Nat := 0x0007
def SF_FORMAT_IMA_ADPCM : Nat := 0x0012
def SF_FORMAT_MS_ADPCM : Nat := 0x0013
def SF_FORMAT_VORBIS : Nat := 0x0060
def SF_FORMAT_OPUS : Nat := 0x0064
def SF_FORMAT_ALAC_20 : Nat := 0x0071
def SF_FORMAT_ALAC_24 : Nat := 0x0072
def SF_FORMAT_ALAC_32 : Nat := 0x0073
def SF_AMBISONIC_B_FORMAT : Int := 0x41
def INT_MAX : Int := 2147483647

/-- The fields of `SF_INFO` that `LoadSound` reads.  `format` is a bit field of
non-negative codes. -/
structure SF_INFO where
  frames : Int
  samplerate : Int
  channels : Int
  format : Nat

/-- Everything `LoadSound` learns from libsndfile and OpenAL: the answers of the
library calls it makes. -/
structure SoundEnv where
  /-- Whether `sf_open` returned a non-null handle. -/
  opened : Bool
  sfinfo : SF_INFO
  /-- The answer of `alIsExtensionPresent(name)`. -/
  alIsExtensionPresent : String → Bool
  /-- Whether `sf_get_chunk_iterator` returned a non-null iterator for `"fmt "`. -/
  chunkIter : Bool
  /-- Whether `sf_get_chunk_size` returned `SF_ERR_NO_ERROR`. -/
  chunkSizeOk : Bool
  /-- The `inf.datalen` that `sf_get_chunk_size` reported. -/
  datalen : Nat
  /-- Whether `sf_get_chunk_data` returned `SF_ERR_NO_ERROR`. -/
  chunkDataOk : Bool
  /-- The bytes of the `fmt ` chunk, by offset. -/
  fmtbuf : Nat → Nat
  /-- The answer of `sf_command(sndfile, SFC_WAVEX_GET_AMBISONIC, NULL, 0)`. -/
  ambisonic : Int
  /-- The value returned by `sf_readf_short`, `sf_readf_float` or `sf_read_raw`. -/
  readResult : Int
  /-- Whether `alGetError()` after `alBufferData` returned `AL_NO_ERROR`. -/
  alNoError : Bool

/-- Wrap-around of an arithmetic result to the 32-bit `int` / `ALint`. -/
def wrapInt32 (x : Int) : Int := SnakeLadder.toInt (SnakeLadder.toUInt x)

/-- The `switch` on `sfinfo.format & SF_FORMAT_SUBMASK` (lines 203-232), starting from
`sample_format = Int16`. -/
def initialSampleFormat (env : SoundEnv) : FormatType :=
  let sub := env.sfinfo.format &&& SF_FORMAT_SUBMASK
  if sub = SF_FORMAT_PCM_24 ∨ sub = SF_FORMAT_PCM_32 ∨ sub = SF_FORMAT_FLOAT ∨
     sub = SF_FORMAT_DOUBLE ∨ sub = SF_FORMAT_VORBIS ∨ sub = SF_FORMAT_OPUS ∨
     sub = SF_FORMAT_ALAC_20 ∨ sub = SF_FORMAT_ALAC_24 ∨ sub = SF_FORMAT_ALAC_32 ∨
     sub = 0x0080 ∨ sub = 0x0081 ∨ sub = 0x0082 then
    if env.alIsExtensionPresent "AL_EXT_FLOAT32" then FormatType.Float else FormatType.Int16
  else if sub = SF_FORMAT_IMA_ADPCM then
    if env.sfinfo.channels ≤ 2 ∧ env.sfinfo.format &&& SF_FORMAT_TYPEMASK = SF_FORMAT_WAV ∧
       env.alIsExtensionPresent "AL_EXT_IMA4" = true ∧
       env.alIsExtensionPresent "AL_SOFT_block_alignment" = true then FormatType.IMA4
    else FormatType.Int16
  else if sub = SF_FORMAT_MS_ADPCM then
    if env.sfinfo.channels ≤ 2 ∧ env.sfinfo.format &&& SF_FORMAT_TYPEMASK = SF_FORMAT_WAV ∧
       env.alIsExtensionPresent "AL_SOFT_MSADPCM" = true ∧
       env.alIsExtensionPresent "AL_SOFT_block_alignment" = true then FormatType.MSADPCM
    else FormatType.Int16
  else FormatType.Int16

/-- The sample type together with `byteblockalign` and `splblockalign`. -/
structure SampleLayout where
  sample_format : FormatType
  byteblockalign : Int
  splblockalign : Int
deriving DecidableEq, Repr

/-- The ADPCM block (lines 234-275): read `nBlockAlign` from the `fmt ` chunk, convert it
to samples per block and fall back to `Int16` when converting back does not give the
original value.  `none` is the division by a zero channel count. -/
def adpcmBlockAlign (env : SoundEnv) (sample_format : FormatType) : Option SampleLayout :=
  if sample_format = FormatType.IMA4 ∨ sample_format = FormatType.MSADPCM then
    if env.chunkIter = false ∨ env.chunkSizeOk = false ∨ env.datalen < 14 then
      some { sample_format := FormatType.Int16, byteblockalign := 0, splblockalign := 0 }
    else if env.chunkDataOk = false then
      some { sample_format := FormatType.Int16, byteblockalign := 0, splblockalign := 0 }
    else
      let byteblockalign : Int :=
        (((env.fmtbuf 12 % 256) ||| ((env.fmtbuf 13 % 256) <<< 8) : Nat) : Int)
      if env.sfinfo.channels = 0 then none
      else if sample_format = FormatType.IMA4 then
        let splblockalign :=
          ((byteblockalign.tdiv env.sfinfo.channels - 4).tdiv 4) * 8 + 1
        if splblockalign < 1 ∨
           ((splblockalign - 1).tdiv 2 + 4) * env.sfinfo.channels ≠ byteblockalign then
          some { sample_format := FormatType.Int16, byteblockalign := byteblockalign,
                 splblockalign := splblockalign }
        else
          some { sample_format := FormatType.IMA4, byteblockalign := byteblockalign,
                 splblockalign := splblockalign }
      else
        let splblockalign := (byteblockalign.tdiv env.sfinfo.channels - 7) * 2 + 2
        if splblockalign < 2 ∨
           ((splblockalign - 2).tdiv 2 + 7) * env.sfinfo.channels ≠ byteblockalign then
          some { sample_format := FormatType.Int16, byteblockalign := byteblockalign,
                 splblockalign := splblockalign }
        else
          some { sample_format := FormatType.MSADPCM, byteblockalign := byteblockalign,
                 splblockalign := splblockalign }
  else some { sample_format := sample_format, byteblockalign := 0, splblockalign := 0 }

/-- Lines 277-286: the block alignment of the two PCM sample types. -/
def pcmBlockAlign (channels : Int) (l : SampleLayout) : SampleLayout :=
  if l.sample_format = FormatType.Int16 then
    { l with splblockalign := 1, byteblockalign := wrapInt32 (channels * 2) }
  else if l.sample_format = FormatType.Float then
    { l with splblockalign := 1, byteblockalign := wrapInt32 (channels * 4) }
  else l

/-- Lines 203-286: the sample type `LoadSound` settles on, with its block alignment. -/
def chooseSampleLayout (env : SoundEnv) : Option SampleLayout :=
  (adpcmBlockAlign env (initialSampleFormat env)).map (pcmBlockAlign env.sfinfo.channels)

/-- Lines 288-331: the OpenAL format for a channel count, a sample type and the answer
`ambisonic` of `sf_command(sndfile, SFC_WAVEX_GET_AMBISONIC, NULL, 0)`. -/
def detectFormat (channels : Int) (sample_format : FormatType) (ambisonic : Int) : ALenum :=
  if channels = 1 then
    match sample_format with
    | FormatType.Int16 => ALenum.AL_FORMAT_MONO16
    | FormatType.Float => ALenum.AL_FORMAT_MONO_FLOAT32
    | FormatType.IMA4 => ALenum.AL_FORMAT_MONO_IMA4
    | FormatType.MSADPCM => ALenum.AL_FORMAT_MONO_MSADPCM_SOFT
  else if channels = 2 then
    match sample_format with
    | FormatType.Int16 => ALenum.AL_FORMAT_STEREO16
    | FormatType.Float => ALenum.AL_FORMAT_STEREO_FLOAT32
    | FormatType.IMA4 => ALenum.AL_FORMAT_STEREO_IMA4
    | FormatType.MSADPCM => ALenum.AL_FORMAT_STEREO_MSADPCM_SOFT
  else if channels = 3 then
    if ambisonic = SF_AMBISONIC_B_FORMAT then
      match sample_format with
      | FormatType.Int16 => ALenum.AL_FORMAT_BFORMAT2D_16
      | FormatType.Float => ALenum.AL_FORMAT_BFORMAT2D_FLOAT32
      | _ => ALenum.AL_NONE
    else ALenum.AL_NONE
  else if channels = 4 then
    if ambisonic = SF_AMBISONIC_B_FORMAT then
      match sample_format with
      | FormatType.Int16 => ALenum.AL_FORMAT_BFORMAT3D_16
      | FormatType.Float => ALenum.AL_FORMAT_BFORMAT3D_FLOAT32
      | _ => ALenum.AL_NONE
    else ALenum.AL_NONE
  else ALenum.AL_NONE

/-- The ways `LoadSound` ends, in source order.  Only the last two are reached after
`malloc` (line 347) and `alGenBuffers` (line 375) have run; `failedToRead` is reached
after `malloc` alone. -/
inductive LoadResult where
  /-- Line 187: "Could not open audio in: ". -/
  | couldNotOpen
  /-- Line 192: "Bad sample count in ". -/
  | badSampleCount
  /-- Line 332: "Unsupported channel count: " followed by the channel count. -/
  | unsupportedChannelCount (channels : Int)
  /-- Line 339: "Too many samples in ". -/
  | tooManySamples
  /-- Line 360: "Failed to read samples in ". -/
  | failedToRead
  /-- Line 385: "OpenAL Error: ", the buffer is deleted again. -/
  | openALError
  /-- The buffer was filled by `alBufferData(m_buffer, format, membuf, num_bytes, ...)`. -/
  | loaded (format : ALenum) (splblockalign : Int) (num_bytes : Int)
deriving DecidableEq, Repr

/-- The text `LoadSound` starts its `std::cerr` line with, if it prints one. -/
def LoadResult.message : LoadResult → Option String
  | LoadResult.couldNotOpen => some "Could not open audio in: "
  | LoadResult.badSampleCount => some "Bad sample count in "
  | LoadResult.unsupportedChannelCount c => some ("Unsupported channel count: " ++ toString c)
  | LoadResult.tooManySamples => some "Too many samples in "
  | LoadResult.failedToRead => some "Failed to read samples in "
  | LoadResult.openALError => some "OpenAL Error: "
  | LoadResult.loaded _ _ _ => none

/-- Whether the decode buffer was allocated (`malloc`, line 347) before `LoadSound`
returned. -/
def LoadResult.membufAllocated : LoadResult → Bool
  | LoadResult.failedToRead => true
  | LoadResult.openALError => true
  | LoadResult.loaded _ _ _ => true
  | _ => false

/-- Whether an OpenAL buffer was generated (`alGenBuffers`, line 375) before `LoadSound`
returned. -/
def LoadResult.bufferGenerated : LoadResult → Bool
  | LoadResult.openALError => true
  | LoadResult.loaded _ _ _ => true
  | _ => false

/-- Lines 339-391: the size check, the decoding and the upload, for the layout and the
format found.  `none` is a division by zero. -/
def decodeAndBuffer (env : SoundEnv) (l : SampleLayout) (format : ALenum) :
    Option LoadResult :=
  if l.splblockalign = 0 ∨ l.byteblockalign = 0 then none
  else if env.sfinfo.frames.tdiv l.splblockalign > INT_MAX.tdiv l.byteblockalign then
    some LoadResult.tooManySamples
  else
    let num_frames : Int :=
      if l.sample_format = FormatType.Int16 ∨ l.sample_format = FormatType.Float then
        env.readResult
      else if env.readResult > 0 then
        env.readResult.tdiv l.byteblockalign * l.splblockalign
      else env.readResult
    if num_frames < 1 then some LoadResult.failedToRead
    else
      let num_bytes := wrapInt32 (num_frames.tdiv l.splblockalign * l.byteblockalign)
      if env.alNoError then some (LoadResult.loaded format l.splblockalign num_bytes)
      else some LoadResult.openALError

/-- Method `SoundFX::LoadSound` (lines 173-392). -/
def LoadSound (env : SoundEnv) : Option LoadResult :=
  if env.opened = false then some LoadResult.couldNotOpen
  else if env.sfinfo.frames < 1 then some LoadResult.badSampleCount
  else
    match chooseSampleLayout env with
    | none => none
    | some l =>
      let format := detectFormat env.sfinfo.channels l.sample_format env.ambisonic
      if format = ALenum.AL_NONE then
        some (LoadResult.unsupportedChannelCount env.sfinfo.channels)
      else decodeAndBuffer env l format

/-- The field `nBlockAlign` as `LoadSound` reads it from the `fmt ` chunk (line 259):
`fmtbuf[12] | (fmtbuf[13] << 8)`. -/
def SoundEnv.nBlockAlign (env : SoundEnv) : Int :=
  (((env.fmtbuf 12 % 256) ||| ((env.fmtbuf 13 % 256) <<< 8) : Nat) : Int)

/-- A sample input: a mono 16-bit PCM WAV file of 1000 frames, read in full. -/
def monoPcmEnv : SoundEnv :=
  { opened := true
    sfinfo := { frames := 1000, samplerate := 44100, channels := 1, format := 0x010002 }
    alIsExtensionPresent := fun _ => true
    chunkIter := true
    chunkSizeOk := true
    datalen := 16
    chunkDataOk := true
    fmtbuf := fun _ => 0
    ambisonic := 0x40
    readResult := 1000
    alNoError := true }

/-- A sample input: a stereo IMA ADPCM WAV file whose `fmt ` chunk gives a block
alignment of 72 bytes (`fmtbuf[12] = 72`, `fmtbuf[13] = 0`). -/
def stereoImaEnv : SoundEnv :=
  { monoPcmEnv with
    sfinfo := { frames := 6500, samplerate := 22050, channels := 2, format := 0x010012 }
    fmtbuf := fun i => if i = 12 then 72 else 0
    readResult := 7200 }

/-- A sample input: a six-channel 16-bit PCM WAV file. -/
def sixChannelEnv : SoundEnv :=
  { monoPcmEnv with
    sfinfo := { frames := 1000, samplerate := 48000, channels := 6, format := 0x010002 } }

end SoundFX

/-! # Theorems -/

namespace SnakeLadder

/-! ## Auxiliary facts about the board -/

set_option maxRecDepth 100000 in
theorem positionMap_new : SnakeLadderBoardWidget.new.positionMap =
    [0, 1, 2, 55, 4, 5, 6, 7, 8, 9, 10, 49, 12, 54, 14, 15, 16, 17, 18, 19,
     20, 57, 22, 23, 24, 25, 26, 9, 28, 29, 30, 31, 32, 33, 34, 35, 2, 37, 38, 39,
     78, 41, 42, 43, 44, 45, 46, 15, 48, 49, 50, 51, 52, 87, 54, 55, 56, 57, 58, 59,
     60, 61, 62, 63, 64, 65, 66, 67, 68, 69, 70, 71, 72, 73, 31, 75, 76, 77, 78, 79,
     80, 81, 82, 83, 84, 85, 86, 87, 88, 89, 90, 91, 92, 70, 94, 41, 96, 97, 98, 99] := by
  decide

set_option maxRecDepth 100000 in
theorem squares_length : SnakeLadderBoardWidget.new.squares.length = 100 := by
  decide

set_option maxRecDepth 100000 in
theorem positionMap_lookup : ∀ n : Nat, n < 100 →
    SnakeLadderBoardWidget.new.positionMap[n]? =
      some (specDestination ((n : Int) + 1) - 1) := by
  rw [positionMap_new]
  decide

set_option maxRecDepth 100000 in
theorem specDestination_facts : ∀ n : Nat, n < 100 →
    1 ≤ specDestination ((n : Int) + 1) ∧ specDestination ((n : Int) + 1) ≤ 100 ∧
    specDestination (specDestination ((n : Int) + 1)) = specDestination ((n : Int) + 1) := by
  decide

theorem specDestination_range (pos : Int) (h1 : 1 ≤ pos) (h2 : pos ≤ 100) :
    1 ≤ specDestination pos ∧ specDestination pos ≤ 100 := by
  obtain ⟨n, rfl⟩ : ∃ n : Nat, pos = (n : Int) + 1 := ⟨(pos - 1).toNat, by omega⟩
  have h := specDestination_facts n (by omega)
  exact ⟨h.1, h.2.1⟩

theorem specDestination_idem (pos : Int) (h1 : 1 ≤ pos) (h2 : pos ≤ 100) :
    specDestination (specDestination pos) = specDestination pos := by
  obtain ⟨n, rfl⟩ : ∃ n : Nat, pos = (n : Int) + 1 := ⟨(pos - 1).toNat, by omega⟩
  exact (specDestination_facts n (by omega)).2.2

theorem getDestination_eq (pos : Int) (h1 : 1 ≤ pos) (h2 : pos ≤ 100) :
    SnakeLadderBoardWidget.new.getDestination pos = some (specDestination pos) := by
  obtain ⟨n, rfl⟩ : ∃ n : Nat, pos = (n : Int) + 1 := ⟨(pos - 1).toNat, by omega⟩
  have hn : n < 100 := by omega
  unfold SnakeLadderBoardWidget.getDestination
  have h0 : ¬ ((n : Int) + 1 - 1 < 0) := by omega
  have h3 : ((n : Int) + 1 - 1).toNat = n := by omega
  rw [if_neg h0, h3, positionMap_lookup n hn]
  simp

theorem getPixelCoordinates_some (pos : Int) (h1 : 1 ≤ pos) (h2 : pos ≤ 100) :
    ∃ c, SnakeLadderBoardWidget.new.getPixelCoordinates pos = some c := by
  obtain ⟨n, rfl⟩ : ∃ n : Nat, pos = (n : Int) + 1 := ⟨(pos - 1).toNat, by omega⟩
  have hn : n < 100 := by omega
  have hr := specDestination_facts n hn
  unfold SnakeLadderBoardWidget.getPixelCoordinates
  have h0 : ¬ ((n : Int) + 1 - 1 < 0) := by omega
  have h3 : ((n : Int) + 1 - 1).toNat = n := by omega
  rw [if_neg h0, h3, positionMap_lookup n hn]
  have h4 : ¬ (specDestination ((n : Int) + 1) - 1 < 0) := by omega
  have h5 : (specDestination ((n : Int) + 1) - 1).toNat <
      SnakeLadderBoardWidget.new.squares.length := by
    rw [squares_length]; omega
  simp only [if_neg h4, List.getElem?_eq_getElem h5]
  exact ⟨_, rfl⟩

theorem toUInt_small (x : Int) (h0 : 0 ≤ x) (h1 : x < 4294967296) : toUInt x = x.toNat := by
  unfold toUInt
  omega

theorem toInt_small (u : Nat) (h : u < 2147483648) : toInt u = (u : Int) := by
  unfold toInt
  have h1 : u % 4294967296 = u := by omega
  rw [h1, if_pos h]

theorem diceFaces_new : DiceWidget.new.diceFaces =
    [some { filename := "dice_1.png" }, some { filename := "dice_2.png" },
     some { filename := "dice_3.png" }, some { filename := "dice_4.png" },
     some { filename := "dice_5.png" }, some { filename := "dice_6.png" }] := by
  decide

theorem roll_eq (d : DiceWidget) (hd : d.diceFaces = DiceWidget.new.diceFaces)
    (drawn : Int) (h1 : 1 ≤ drawn) (h6 : drawn ≤ 6) :
    d.roll drawn = some (drawn.toNat,
      { d with
        currentFace := some (Fl_PNG_Image.mk ("dice_" ++ toString drawn.toNat ++ ".png")) }) := by
  unfold DiceWidget.roll DiceWidget.setDiceImage
  rw [hd, diceFaces_new]
  interval_cases drawn <;> rfl

end SnakeLadder

namespace SnakeLadder

/-! ## Auxiliary facts about `handle` -/

theorem moveCurrent_eq (g : SnakeLadderBoardGameWidget) (pos : Int) (r : Nat)
    (hp1 : 1 ≤ pos) (hp2 : pos ≤ 100) (hr1 : 1 ≤ r) (hr2 : r ≤ 6) :
    moveCurrent CreateBoard g pos r =
      if pos + r > 100 then
        some { g with
          rollStr := (if g.currentPlayerColor = PLAYER.GREEN then "Green: " else "Red: ")
            ++ "Dice roll: " ++ toString r
          scoreboard := ScoreBoardWidget.mk
            ((if g.currentPlayerColor = PLAYER.GREEN then "Green: " else "Red: ")
              ++ "Dice roll: " ++ toString r) }
      else if specDestination (pos + r) = 100 then
        some ({ g with
          rollStr := "\nCongratulations!!\n" ++
            (if g.currentPlayerColor = PLAYER.GREEN then "Green wins" else "Red wins")
          scoreboard := ScoreBoardWidget.mk ("\nCongratulations!!\n" ++
            (if g.currentPlayerColor = PLAYER.GREEN then "Green wins" else "Red wins"))
          gameDone := true }.updateCurrent (specDestination (pos + r)))
      else
        some ({ g with
          rollStr :=
            if specDestination (pos + r) > pos + r then "Wow!!great luck"
            else if specDestination (pos + r) < pos + r then "Oops!! bad luck"
            else (if g.currentPlayerColor = PLAYER.GREEN then "Green: " else "Red: ")
              ++ "Dice roll: " ++ toString r
          scoreboard := ScoreBoardWidget.mk
            (if specDestination (pos + r) > pos + r then "Wow!!great luck"
             else if specDestination (pos + r) < pos + r then "Oops!! bad luck"
             else (if g.currentPlayerColor = PLAYER.GREEN then "Green: " else "Red: ")
               ++ "Dice roll: " ++ toString r) }.updateCurrent (specDestination (pos + r))) := by
  have ht : (toUInt pos + r) % 4294967296 = (pos + r).toNat := by
    rw [toUInt_small pos (by omega) (by omega)]; omega
  unfold moveCurrent
  simp only [ht, ScoreBoardWidget.setMessage]
  by_cases h : pos + r > 100
  · have h2 : (pos + (r : Int)).toNat > 100 := by omega
    rw [if_pos h, if_pos h2]
  · have h2 : ¬ (pos + (r : Int)).toNat > 100 := by omega
    have hti : toInt (pos + (r : Int)).toNat = pos + r := by
      rw [toInt_small _ (by omega)]; omega
    have hg : CreateBoard.getDestination (pos + r) = some (specDestination (pos + r)) :=
      getDestination_eq (pos + r) (by omega) (by omega)
    have hs := specDestination_range (pos + r) (by omega) (by omega)
    have hu : toUInt (specDestination (pos + r)) = (specDestination (pos + r)).toNat :=
      toUInt_small _ (by omega) (by omega)
    rw [if_neg h, if_neg h2, hti, hg]
    simp only [hu]
    have e1 : ((specDestination (pos + r)).toNat > (pos + (r : Int)).toNat) ↔
        (specDestination (pos + r) > pos + r) := by omega
    have e2 : ((specDestination (pos + r)).toNat < (pos + (r : Int)).toNat) ↔
        (specDestination (pos + r) < pos + r) := by omega
    simp only [e1, e2]

end SnakeLadder

namespace SnakeLadder

theorem updateCurrent_fields (g : SnakeLadderBoardGameWidget) (p : Int) :
    (g.updateCurrent p).playerA.position =
        (if g.currentPlayer = PlayerPtr.playerA then p else g.playerA.position) ∧
    (g.updateCurrent p).playerB.position =
        (if g.currentPlayer = PlayerPtr.playerB then p else g.playerB.position) ∧
    (g.updateCurrent p).turn = g.turn ∧
    (g.updateCurrent p).gameDone = g.gameDone ∧
    (g.updateCurrent p).scoreboard = g.scoreboard ∧
    (g.updateCurrent p).rollStr = g.rollStr ∧
    (g.updateCurrent p).dice = g.dice ∧
    (g.updateCurrent p).currentPlayer = g.currentPlayer := by
  unfold SnakeLadderBoardGameWidget.updateCurrent PlayerWidget.updatePosition
  cases h : g.currentPlayer <;> simp

theorem PositionPlayersOnBoard_fst (cA cB : Coord) (pA pB : PlayerWidget) :
    (PositionPlayersOnBoard cA cB pA pB).1.position = pA.position := by
  unfold PositionPlayersOnBoard PlayerWidget.updateCoordinates
  simp only []
  split <;> rfl

theorem PositionPlayersOnBoard_snd (cA cB : Coord) (pA pB : PlayerWidget) :
    (PositionPlayersOnBoard cA cB pA pB).2.position = pB.position := by
  unfold PositionPlayersOnBoard PlayerWidget.updateCoordinates
  simp only []
  split <;> rfl

/-- The state a handled press leaves behind, field by field: `t` is the dice total
`pos + drawn` of the player to move. -/
theorem handle_push (g : SnakeLadderBoardGameWidget) (drawn : Int)
    (hw : WellFormed g) (hd : g.gameDone = false) (h1 : 1 ≤ drawn) (h6 : drawn ≤ 6) :
    ∃ g1 : SnakeLadderBoardGameWidget,
      handle CreateBoard g FL_PUSH drawn = some (1, g1) ∧
      g1.turn = (!g.turn) ∧
      g1.currentPlayer = (if (!g.turn) = true then PlayerPtr.playerB else PlayerPtr.playerA) ∧
      g1.currentPlayerColor = (if (!g.turn) = true then PLAYER.GREEN else PLAYER.RED) ∧
      g1.playerA.position =
        (if g.currentPlayer = PlayerPtr.playerA ∧ g.current.position + drawn ≤ 100
         then specDestination (g.current.position + drawn) else g.playerA.position) ∧
      g1.playerB.position =
        (if g.currentPlayer = PlayerPtr.playerB ∧ g.current.position + drawn ≤ 100
         then specDestination (g.current.position + drawn) else g.playerB.position) ∧
      (g1.gameDone = true ↔
        (g.current.position + drawn ≤ 100 ∧
          specDestination (g.current.position + drawn) = 100)) ∧
      g1.scoreboard.msg =
        (if g.current.position + drawn > 100 then
           (if g.currentPlayerColor = PLAYER.GREEN then "Green: " else "Red: ")
             ++ "Dice roll: " ++ toString drawn.toNat
         else if specDestination (g.current.position + drawn) = 100 then
           "\nCongratulations!!\n" ++
             (if g.currentPlayerColor = PLAYER.GREEN then "Green wins" else "Red wins")
         else if specDestination (g.current.position + drawn) > g.current.position + drawn
           then "Wow!!great luck"
         else if specDestination (g.current.position + drawn) < g.current.position + drawn
           then "Oops!! bad luck"
         else (if g.currentPlayerColor = PLAYER.GREEN then "Green: " else "Red: ")
             ++ "Dice roll: " ++ toString drawn.toNat) ∧
      g1.rollStr = g1.scoreboard.msg ∧
      g1.dice.diceFaces = g.dice.diceFaces ∧
      g1.dice.currentFace =
        some (Fl_PNG_Image.mk ("dice_" ++ toString drawn.toNat ++ ".png")) ∧
      CreateBoard.getPixelCoordinates g1.playerA.position = some g1.coordinate_playerA ∧
      CreateBoard.getPixelCoordinates g1.playerB.position = some g1.coordinate_playerB ∧
      (g1.playerA, g1.playerB) =
        PositionPlayersOnBoard g1.coordinate_playerA g1.coordinate_playerB
          { g.playerA with position := g1.playerA.position }
          { g.playerB with position := g1.playerB.position } := by
  obtain ⟨hA, hB, hF⟩ := hw
  have hcur : 1 ≤ g.current.position ∧ g.current.position ≤ 100 := by
    unfold SnakeLadderBoardGameWidget.current
    cases g.currentPlayer <;> simp only <;> assumption
  have hcast : ((drawn.toNat : Nat) : Int) = drawn := by omega
  unfold handle
  rw [if_pos ⟨hd, rfl⟩]
  simp only [PlayerWidget.getPosition]
  rw [roll_eq g.dice hF drawn h1 h6]
  simp only []
  rw [moveCurrent_eq _ g.current.position drawn.toNat hcur.1 hcur.2 (by omega) (by omega)]
  rw [hcast]
  have hle : ¬ (g.current.position + drawn > 100) → g.current.position + drawn ≤ 100 := by
    intro h; omega
  by_cases hgt : g.current.position + drawn > 100
  · have hng : ¬ (g.current.position + drawn ≤ 100) := by omega
    obtain ⟨cA, hcA⟩ := getPixelCoordinates_some g.playerA.position hA.1 hA.2
    obtain ⟨cB, hcB⟩ := getPixelCoordinates_some g.playerB.position hB.1 hB.2
    have hcA1 : CreateBoard.getPixelCoordinates g.playerA.position = some cA := hcA
    have hcB1 : CreateBoard.getPixelCoordinates g.playerB.position = some cB := hcB
    rw [if_pos hgt]
    simp only [hcA1, hcB1]
    refine ⟨_, rfl, ?_⟩
    simp [hgt, hng, hd, hcA1, hcB1, PositionPlayersOnBoard_fst, PositionPlayersOnBoard_snd]
  · have hle1 := hle hgt
    have hs := specDestination_range (g.current.position + drawn) (by omega) hle1
    obtain ⟨cS, hcS⟩ := getPixelCoordinates_some _ hs.1 hs.2
    obtain ⟨cA, hcA⟩ := getPixelCoordinates_some g.playerA.position hA.1 hA.2
    obtain ⟨cB, hcB⟩ := getPixelCoordinates_some g.playerB.position hB.1 hB.2
    have hcS1 : CreateBoard.getPixelCoordinates
        (specDestination (g.current.position + drawn)) = some cS := hcS
    have hcA1 : CreateBoard.getPixelCoordinates g.playerA.position = some cA := hcA
    have hcB1 : CreateBoard.getPixelCoordinates g.playerB.position = some cB := hcB
    rw [if_neg hgt]
    by_cases h100 : specDestination (g.current.position + drawn) = 100
    · rw [if_pos h100]
      have hcS2 : CreateBoard.getPixelCoordinates 100 = some cS := by
        rw [← h100]; exact hcS1
      cases hc : g.currentPlayer
      · simp only [SnakeLadderBoardGameWidget.updateCurrent, hc, PlayerWidget.updatePosition,
          hcS1, hcB1]
        refine ⟨_, rfl, ?_⟩
        simp [hgt, hle1, h100, hd, hcS2, hcB1, PositionPlayersOnBoard_fst,
          PositionPlayersOnBoard_snd]
      · simp only [SnakeLadderBoardGameWidget.updateCurrent, hc, PlayerWidget.updatePosition,
          hcS1, hcA1]
        refine ⟨_, rfl, ?_⟩
        simp [hgt, hle1, h100, hd, hcS2, hcA1, PositionPlayersOnBoard_fst,
          PositionPlayersOnBoard_snd]
    · rw [if_neg h100]
      cases hc : g.currentPlayer
      · simp only [SnakeLadderBoardGameWidget.updateCurrent, hc, PlayerWidget.updatePosition,
          hcS1, hcB1]
        refine ⟨_, rfl, ?_⟩
        simp [hgt, hle1, h100, hd, hcS1, hcB1, PositionPlayersOnBoard_fst,
          PositionPlayersOnBoard_snd]
      · simp only [SnakeLadderBoardGameWidget.updateCurrent, hc, PlayerWidget.updatePosition,
          hcS1, hcA1]
        refine ⟨_, rfl, ?_⟩
        simp [hgt, hle1, h100, hd, hcS1, hcA1, PositionPlayersOnBoard_fst,
          PositionPlayersOnBoard_snd]

end SnakeLadder

namespace SnakeLadder

set_option maxRecDepth 100000 in
theorem CreateGame_eq : CreateGame CreateBoard = some newGame := by
  decide

set_option maxRecDepth 100000 in
theorem specDestination_cases : ∀ n : Nat, n < 100 →
    (specDestination ((n : Int) + 1) = 100 ↔ (n : Int) + 1 = 100) ∧
    (specDestination ((n : Int) + 1) > (n : Int) + 1 ↔ ((n : Int) + 1) ∈ ladderSquares) ∧
    (specDestination ((n : Int) + 1) < (n : Int) + 1 ↔ ((n : Int) + 1) ∈ snakeSquares) := by
  decide

theorem specDestination_eq_100 (t : Int) (h1 : 1 ≤ t) (h2 : t ≤ 100) :
    specDestination t = 100 ↔ t = 100 := by
  obtain ⟨n, rfl⟩ : ∃ n : Nat, t = (n : Int) + 1 := ⟨(t - 1).toNat, by omega⟩
  exact (specDestination_cases n (by omega)).1

theorem specDestination_gt (t : Int) (h1 : 1 ≤ t) (h2 : t ≤ 100) :
    specDestination t > t ↔ t ∈ ladderSquares := by
  obtain ⟨n, rfl⟩ : ∃ n : Nat, t = (n : Int) + 1 := ⟨(t - 1).toNat, by omega⟩
  exact (specDestination_cases n (by omega)).2.1

theorem specDestination_lt (t : Int) (h1 : 1 ≤ t) (h2 : t ≤ 100) :
    specDestination t < t ↔ t ∈ snakeSquares := by
  obtain ⟨n, rfl⟩ : ∃ n : Nat, t = (n : Int) + 1 := ⟨(t - 1).toNat, by omega⟩
  exact (specDestination_cases n (by omega)).2.2

theorem current_position_range (g : SnakeLadderBoardGameWidget) (hw : WellFormed g) :
    1 ≤ g.current.position ∧ g.current.position ≤ 100 := by
  obtain ⟨hA, hB, _⟩ := hw
  unfold SnakeLadderBoardGameWidget.current
  cases g.currentPlayer <;> simp only <;> assumption

theorem handle_ignored (b : AbstractBoard) (g : SnakeLadderBoardGameWidget) (event drawn : Int)
    (h : ¬ (g.gameDone = false ∧ event = FL_PUSH)) :
    handle b g event drawn = some (0, g) := by
  unfold handle
  rw [if_neg h]

/-- A handled press keeps both players on the board and the dice faces in place. -/
theorem handle_wellFormed (g g1 : SnakeLadderBoardGameWidget) (event drawn ret : Int)
    (hw : WellFormed g) (h1 : 1 ≤ drawn) (h6 : drawn ≤ 6)
    (hh : handle CreateBoard g event drawn = some (ret, g1)) : WellFormed g1 := by
  by_cases hc : g.gameDone = false ∧ event = FL_PUSH
  · obtain ⟨hd, rfl⟩ := hc
    obtain ⟨g2, hg2, _, _, _, hpA, hpB, _, _, _, hF, _⟩ := handle_push g drawn hw hd h1 h6
    rw [hg2] at hh
    have hEq : g2 = g1 := by
      have := Option.some.inj hh
      exact (Prod.mk.inj this).2
    subst hEq
    have hcur := current_position_range g hw
    obtain ⟨hA, hB, hFF⟩ := hw
    refine ⟨?_, ?_, ?_⟩
    · rw [hpA]
      split
      · rename_i hx
        exact specDestination_range _ (by omega) hx.2
      · exact hA
    · rw [hpB]
      split
      · rename_i hx
        exact specDestination_range _ (by omega) hx.2
      · exact hB
    · rw [hF]; exact hFF
  · rw [handle_ignored _ g event drawn hc] at hh
    have hEq : g = g1 := by
      have := Option.some.inj hh
      exact (Prod.mk.inj this).2
    subst hEq
    exact hw

set_option maxRecDepth 100000 in
theorem newGame_wellFormed : WellFormed newGame := by
  decide

/-- The turn invariant: after `n` handled presses the turn flag is the parity of `n`,
and `currentPlayer` and `currentPlayerColor` follow the flag. -/
theorem reachableIn_inv (n : Nat) (g : SnakeLadderBoardGameWidget) (h : ReachableIn n g) :
    WellFormed g ∧ g.turn = decide (n % 2 = 1) ∧
    g.currentPlayer = (if g.turn = true then PlayerPtr.playerB else PlayerPtr.playerA) ∧
    g.currentPlayerColor = (if g.turn = true then PLAYER.GREEN else PLAYER.RED) := by
  induction h with
  | init g hg =>
    rw [CreateGame_eq] at hg
    have hEq : newGame = g := Option.some.inj hg
    subst hEq
    exact ⟨newGame_wellFormed, rfl, rfl, rfl⟩
  | press n g g1 event drawn _ h1 h6 hh ih =>
    obtain ⟨hw, ht, _, _⟩ := ih
    have hw1 := handle_wellFormed g g1 event drawn 1 hw h1 h6 hh
    by_cases hc : g.gameDone = false ∧ event = FL_PUSH
    · obtain ⟨hd, rfl⟩ := hc
      obtain ⟨g2, hg2, hturn, hcp, hcol, _⟩ := handle_push g drawn hw hd h1 h6
      rw [hg2] at hh
      have hEq : g2 = g1 := (Prod.mk.inj (Option.some.inj hh)).2
      subst hEq
      refine ⟨hw1, ?_, ?_, ?_⟩
      · rw [hturn, ht]
        rcases Nat.mod_two_eq_zero_or_one n with h0 | h0
        · have : (n + 1) % 2 = 1 := by omega
          simp [h0, this]
        · have : (n + 1) % 2 = 0 := by omega
          simp [h0, this]
      · rw [hcp, hturn]
      · rw [hcol, hturn]
    · rw [handle_ignored _ g event drawn hc] at hh
      have := (Prod.mk.inj (Option.some.inj hh)).1
      omega
  | ignored n g g1 event drawn _ h1 h6 hh ih =>
    by_cases hc : g.gameDone = false ∧ event = FL_PUSH
    · obtain ⟨hd, rfl⟩ := hc
      obtain ⟨g2, hg2, _⟩ := handle_push g drawn ih.1 hd h1 h6
      rw [hg2] at hh
      have := (Prod.mk.inj (Option.some.inj hh)).1
      omega
    · rw [handle_ignored _ g event drawn hc] at hh
      have hEq : g = g1 := (Prod.mk.inj (Option.some.inj hh)).2
      subst hEq
      exact ih

end SnakeLadder

namespace SnakeLadder

/-! ## The board: claims C1 and C10 -/

set_option maxRecDepth 100000 in
theorem redirecting_count :
    ((List.range 100).filter (fun n => decide
      (SnakeLadderBoardWidget.new.getDestination ((n : Int) + 1) ≠ some ((n : Int) + 1)))).length
      = 12 ∧
    ((List.range 100).filter (fun n => decide
      (SnakeLadderBoardWidget.new.getDestination ((n : Int) + 1) = some ((n : Int) + 1)))).length
      = 88 := by
  unfold SnakeLadderBoardWidget.getDestination
  rw [positionMap_new]
  decide

/-- C1: `getDestination` is a fixed lookup on the hundred squares.  For every `pos` in
`1..100` it returns the listed top for each of the six ladder squares, the listed tail
for each of the six snake squares and `pos` itself for every other square; exactly 12
of the 100 squares redirect (88 do not), and the result lies in `1..100`. -/
theorem getDestination_fixed_lookup (pos : Int) (h1 : 1 ≤ pos) (h100 : pos ≤ 100) :
    (pos = 4 → SnakeLadderBoardWidget.new.getDestination pos = some 56) ∧
    (pos = 12 → SnakeLadderBoardWidget.new.getDestination pos = some 50) ∧
    (pos = 14 → SnakeLadderBoardWidget.new.getDestination pos = some 55) ∧
    (pos = 22 → SnakeLadderBoardWidget.new.getDestination pos = some 58) ∧
    (pos = 41 → SnakeLadderBoardWidget.new.getDestination pos = some 79) ∧
    (pos = 54 → SnakeLadderBoardWidget.new.getDestination pos = some 88) ∧
    (pos = 28 → SnakeLadderBoardWidget.new.getDestination pos = some 10) ∧
    (pos = 37 → SnakeLadderBoardWidget.new.getDestination pos = some 3) ∧
    (pos = 48 → SnakeLadderBoardWidget.new.getDestination pos = some 16) ∧
    (pos = 75 → SnakeLadderBoardWidget.new.getDestination pos = some 32) ∧
    (pos = 94 → SnakeLadderBoardWidget.new.getDestination pos = some 71) ∧
    (pos = 96 → SnakeLadderBoardWidget.new.getDestination pos = some 42) ∧
    (pos ∉ ladderSquares → pos ∉ snakeSquares →
      SnakeLadderBoardWidget.new.getDestination pos = some pos) ∧
    (∃ d, SnakeLadderBoardWidget.new.getDestination pos = some d ∧ 1 ≤ d ∧ d ≤ 100) ∧
    ((List.range 100).filter (fun n => decide
      (SnakeLadderBoardWidget.new.getDestination ((n : Int) + 1) ≠ some ((n : Int) + 1)))).length
      = 12 ∧
    ((List.range 100).filter (fun n => decide
      (SnakeLadderBoardWidget.new.getDestination ((n : Int) + 1) = some ((n : Int) + 1)))).length
      = 88 := by
  have hg := getDestination_eq pos h1 h100
  have hr := specDestination_range pos h1 h100
  refine ⟨?_, ?_, ?_, ?_, ?_, ?_, ?_, ?_, ?_, ?_, ?_, ?_, ?_, ⟨_, hg, hr.1, hr.2⟩,
    redirecting_count.1, redirecting_count.2⟩
  any_goals (intro h; subst h; exact hg)
  intro hl hs
  rw [hg]
  simp only [ladderSquares, snakeSquares, List.mem_cons, List.mem_singleton, not_or,
    List.not_mem_nil, or_false] at hl hs
  unfold specDestination
  simp [hl, hs]

/-- Witness for C1: the ladder square 4. -/
theorem getDestination_fixed_lookup_witness :
    SnakeLadderBoardWidget.new.getDestination 4 = some 56 :=
  (getDestination_fixed_lookup 4 (by decide) (by decide)).1 rfl

/-- C10: `getDestination` returns the final destination.  For every `pos` in `1..100`
the destination `d` of `pos` is a square that is its own destination, so no snake or
ladder ends where another one starts; squares 1 and 100 are not redirected. -/
theorem getDestination_idempotent (pos : Int) (h1 : 1 ≤ pos) (h100 : pos ≤ 100) :
    (∃ d, SnakeLadderBoardWidget.new.getDestination pos = some d ∧
      SnakeLadderBoardWidget.new.getDestination d = some d ∧
      d ∉ ladderSquares ∧ d ∉ snakeSquares) ∧
    SnakeLadderBoardWidget.new.getDestination 1 = some 1 ∧
    SnakeLadderBoardWidget.new.getDestination 100 = some 100 := by
  have hr := specDestination_range pos h1 h100
  have hi := specDestination_idem pos h1 h100
  refine ⟨⟨specDestination pos, getDestination_eq pos h1 h100, ?_, ?_, ?_⟩,
    getDestination_eq 1 (by decide) (by decide), getDestination_eq 100 (by decide) (by decide)⟩
  · rw [getDestination_eq _ hr.1 hr.2, hi]
  · intro hmem
    have := (specDestination_gt _ hr.1 hr.2).2 hmem
    omega
  · intro hmem
    have := (specDestination_lt _ hr.1 hr.2).2 hmem
    omega

/-- Witness for C10: the snake square 96, whose tail 42 is a plain square. -/
theorem getDestination_idempotent_witness :
    ∃ d, SnakeLadderBoardWidget.new.getDestination 96 = some d ∧
      SnakeLadderBoardWidget.new.getDestination d = some d ∧
      d ∉ ladderSquares ∧ d ∉ snakeSquares :=
  (getDestination_idempotent 96 (by decide) (by decide)).1

end SnakeLadder

namespace SnakeLadder

/-! ## The press handler: claims C2, C3, C4, C5 and C9 -/

theorem playerAt_current (g : SnakeLadderBoardGameWidget) :
    g.playerAt g.currentPlayer = g.current := by
  unfold SnakeLadderBoardGameWidget.playerAt SnakeLadderBoardGameWidget.current
  cases g.currentPlayer <;> rfl

/-- When the dice total passes 100 the result of `handle` does not depend on what
`getDestination` would answer. -/
theorem handle_no_query (b1 b2 : AbstractBoard) (g : SnakeLadderBoardGameWidget)
    (drawn : Int) (hw : WellFormed g) (h1 : 1 ≤ drawn) (h6 : drawn ≤ 6)
    (hpix : b1.getPixelCoordinates = b2.getPixelCoordinates)
    (hgt : g.current.position + drawn > 100) :
    handle b1 g FL_PUSH drawn = handle b2 g FL_PUSH drawn := by
  have hcur := current_position_range g hw
  have hm : ∀ (b : AbstractBoard) (x : SnakeLadderBoardGameWidget),
      moveCurrent b x g.current.position drawn.toNat =
        some { x with
          rollStr := (if x.currentPlayerColor = PLAYER.GREEN then "Green: " else "Red: ")
            ++ "Dice roll: " ++ toString drawn.toNat
          scoreboard := x.scoreboard.setMessage
            ((if x.currentPlayerColor = PLAYER.GREEN then "Green: " else "Red: ")
              ++ "Dice roll: " ++ toString drawn.toNat) } := by
    intro b x
    have ht : (toUInt g.current.position + drawn.toNat) % 4294967296 > 100 := by
      rw [toUInt_small g.current.position (by omega) (by omega)]; omega
    unfold moveCurrent
    simp only []
    rw [if_pos ht]
  unfold handle
  simp only [PlayerWidget.getPosition, roll_eq g.dice hw.2.2 drawn h1 h6, hm, hpix]

/-- C2: the win check of `handle`.  In every state of a running game (`gameDone` false,
both players on the board) and for every roll in `1..6`, a press is handled, and it sets
`gameDone` exactly when the position of the player to move plus the roll is 100 (the
only square whose destination is 100 is 100 itself).  In that case the roller stands on
100 afterwards and the message is a newline, `Congratulations!!`, a newline and
`Red wins` or `Green wins` after the roller's colour. -/
theorem handle_win_check (g : SnakeLadderBoardGameWidget) (drawn : Int)
    (hw : WellFormed g) (hd : g.gameDone = false) (h1 : 1 ≤ drawn) (h6 : drawn ≤ 6) :
    ∃ g1, handle CreateBoard g FL_PUSH drawn = some (1, g1) ∧
      (g1.gameDone = true ↔ g.current.position + drawn = 100) ∧
      (g.current.position + drawn = 100 →
        (g1.playerAt g.currentPlayer).position = 100 ∧
        (g.currentPlayerColor = PLAYER.RED →
          g1.scoreboard.msg = "\nCongratulations!!\nRed wins") ∧
        (g.currentPlayerColor = PLAYER.GREEN →
          g1.scoreboard.msg = "\nCongratulations!!\nGreen wins")) ∧
      (∀ t : Int, 1 ≤ t → t ≤ 100 →
        (CreateBoard.getDestination t = some 100 ↔ t = 100)) := by
  have hcur := current_position_range g hw
  obtain ⟨g1, hg1, _, _, _, hpA, hpB, hdone, hmsg, _⟩ := handle_push g drawn hw hd h1 h6
  refine ⟨g1, hg1, ?_, ?_, ?_⟩
  · rw [hdone]
    constructor
    · rintro ⟨hle, hs⟩
      exact (specDestination_eq_100 _ (by omega) hle).1 hs
    · intro ht
      refine ⟨by omega, ?_⟩
      rw [ht]; rfl
  · intro ht
    have hs : specDestination (g.current.position + drawn) = 100 := by rw [ht]; rfl
    have hle : g.current.position + drawn ≤ 100 := by omega
    have hngt : ¬ (g.current.position + drawn > 100) := by omega
    refine ⟨?_, ?_, ?_⟩
    · unfold SnakeLadderBoardGameWidget.playerAt
      cases hc : g.currentPlayer
      · simp only []
        rw [hpA, if_pos ⟨hc, hle⟩, hs]
      · simp only []
        rw [hpB, if_pos ⟨hc, hle⟩, hs]
    · intro hcol
      rw [hmsg, if_neg hngt, if_pos hs, hcol]
      decide
    · intro hcol
      rw [hmsg, if_neg hngt, if_pos hs, hcol]
      decide
  · intro t ht1 ht2
    have hgd : CreateBoard.getDestination t = some (specDestination t) :=
      getDestination_eq t ht1 ht2
    rw [hgd]
    constructor
    · intro h
      exact (specDestination_eq_100 t ht1 ht2).1 (Option.some.inj h)
    · intro h
      rw [(specDestination_eq_100 t ht1 ht2).2 h]

/-- Witness for C2: Red on 97 rolls a 3. -/
theorem handle_win_check_witness :
    ∃ g1, handle CreateBoard lateGame FL_PUSH 3 = some (1, g1) ∧
      (g1.gameDone = true ↔ lateGame.current.position + 3 = 100) ∧
      (lateGame.current.position + 3 = 100 →
        (g1.playerAt lateGame.currentPlayer).position = 100 ∧
        (lateGame.currentPlayerColor = PLAYER.RED →
          g1.scoreboard.msg = "\nCongratulations!!\nRed wins") ∧
        (lateGame.currentPlayerColor = PLAYER.GREEN →
          g1.scoreboard.msg = "\nCongratulations!!\nGreen wins")) ∧
      (∀ t : Int, 1 ≤ t → t ≤ 100 →
        (CreateBoard.getDestination t = some 100 ↔ t = 100)) :=
  handle_win_check lateGame 3 (by decide) rfl (by decide) (by decide)

/-- C3: the bound check of `handle`.  In every state of a running game and for every roll
in `1..6`: if the roller's position plus the roll exceeds 100, a press leaves both
positions and `gameDone` unchanged, gives the same result whatever `getDestination` of
the board would answer, and still toggles the turn (the move passes to the other player
when the turn flag and `currentPlayer` agree); otherwise the roller's new position is
`getDestination (pos + r)` and the other player's position is unchanged. -/
theorem handle_bound_check (g : SnakeLadderBoardGameWidget) (drawn : Int)
    (hw : WellFormed g) (hd : g.gameDone = false) (h1 : 1 ≤ drawn) (h6 : drawn ≤ 6) :
    ∃ g1, handle CreateBoard g FL_PUSH drawn = some (1, g1) ∧
      (g.current.position + drawn > 100 →
        g1.playerA.position = g.playerA.position ∧
        g1.playerB.position = g.playerB.position ∧
        g1.gameDone = g.gameDone ∧
        g1.turn = (!g.turn) ∧
        ((g.turn = true ↔ g.currentPlayer = PlayerPtr.playerB) →
          g1.currentPlayer = g.currentPlayer.opponent) ∧
        (∀ board : AbstractBoard,
          board.getPixelCoordinates = CreateBoard.getPixelCoordinates →
          handle board g FL_PUSH drawn = some (1, g1))) ∧
      (g.current.position + drawn ≤ 100 →
        CreateBoard.getDestination (g.current.position + drawn) =
          some (g1.playerAt g.currentPlayer).position ∧
        (g1.playerAt g.currentPlayer.opponent).position =
          (g.playerAt g.currentPlayer.opponent).position) := by
  have hcur := current_position_range g hw
  obtain ⟨g1, hg1, hturn, hcp, _, hpA, hpB, hdone, _⟩ := handle_push g drawn hw hd h1 h6
  refine ⟨g1, hg1, ?_, ?_⟩
  · intro hgt
    have hng : ¬ (g.current.position + drawn ≤ 100) := by omega
    refine ⟨?_, ?_, ?_, hturn, ?_, ?_⟩
    · rw [hpA, if_neg (fun h => hng h.2)]
    · rw [hpB, if_neg (fun h => hng h.2)]
    · rw [hd]
      cases hb : g1.gameDone
      · rfl
      · exact absurd (hdone.1 hb).1 hng
    · intro hcons
      rw [hcp]
      cases ht : g.turn <;> cases hc : g.currentPlayer <;> simp_all [PlayerPtr.opponent]
    · intro board hb
      rw [handle_no_query board CreateBoard g drawn hw h1 h6 hb hgt, hg1]
  · intro hle
    constructor
    · have hgd : CreateBoard.getDestination (g.current.position + drawn) =
          some (specDestination (g.current.position + drawn)) :=
        getDestination_eq _ (by omega) hle
      rw [hgd]
      unfold SnakeLadderBoardGameWidget.playerAt
      cases hc : g.currentPlayer
      · simp only []
        rw [hpA, if_pos ⟨hc, hle⟩]
      · simp only []
        rw [hpB, if_pos ⟨hc, hle⟩]
    · unfold SnakeLadderBoardGameWidget.playerAt PlayerPtr.opponent
      cases hc : g.currentPlayer
      · simp only []
        rw [hpB, if_neg (fun h => by rw [hc] at h; exact absurd h.1 (by decide))]
      · simp only []
        rw [hpA, if_neg (fun h => by rw [hc] at h; exact absurd h.1 (by decide))]

/-- Witness for C3: Red on 97 rolls a 5, which would pass square 100. -/
theorem handle_bound_check_witness :
    ∃ g1, handle CreateBoard lateGame FL_PUSH 5 = some (1, g1) ∧
      (lateGame.current.position + 5 > 100 →
        g1.playerA.position = lateGame.playerA.position ∧
        g1.playerB.position = lateGame.playerB.position ∧
        g1.gameDone = lateGame.gameDone ∧
        g1.turn = (!lateGame.turn) ∧
        ((lateGame.turn = true ↔ lateGame.currentPlayer = PlayerPtr.playerB) →
          g1.currentPlayer = lateGame.currentPlayer.opponent) ∧
        (∀ board : AbstractBoard,
          board.getPixelCoordinates = CreateBoard.getPixelCoordinates →
          handle board lateGame FL_PUSH 5 = some (1, g1))) ∧
      (lateGame.current.position + 5 ≤ 100 →
        CreateBoard.getDestination (lateGame.current.position + 5) =
          some (g1.playerAt lateGame.currentPlayer).position ∧
        (g1.playerAt lateGame.currentPlayer.opponent).position =
          (lateGame.playerAt lateGame.currentPlayer.opponent).position) :=
  handle_bound_check lateGame 5 (by decide) rfl (by decide) (by decide)

end SnakeLadder

namespace SnakeLadder

/-- C4: the turn order.  After `CreateGame` both players are on square 1 and Red
(`playerA`) is to move; every press handled while `gameDone` is false toggles `turn`,
whatever the roll; in a state reached after `n` handled presses the roller of the next,
`(n + 1)`-th, press is Red when `n + 1` is odd and Green (`playerB`) when it is even;
and in every reachable state `turn = true`, `currentPlayer = playerB` and
`currentPlayerColor = GREEN` hold together or fail together. -/
theorem turn_order :
    (∃ g0, CreateGame CreateBoard = some g0 ∧ g0.playerA.position = 1 ∧
      g0.playerB.position = 1 ∧ g0.currentPlayer = PlayerPtr.playerA ∧
      g0.currentPlayerColor = PLAYER.RED ∧ g0.gameDone = false) ∧
    (∀ (g : SnakeLadderBoardGameWidget) (drawn : Int), Reachable g → g.gameDone = false →
      1 ≤ drawn → drawn ≤ 6 →
      ∃ g1, handle CreateBoard g FL_PUSH drawn = some (1, g1) ∧ g1.turn = (!g.turn)) ∧
    (∀ (n : Nat) (g : SnakeLadderBoardGameWidget), ReachableIn n g →
      ((n + 1) % 2 = 1 →
        g.currentPlayer = PlayerPtr.playerA ∧ g.currentPlayerColor = PLAYER.RED) ∧
      ((n + 1) % 2 = 0 →
        g.currentPlayer = PlayerPtr.playerB ∧ g.currentPlayerColor = PLAYER.GREEN)) ∧
    (∀ g : SnakeLadderBoardGameWidget, Reachable g →
      (g.turn = true ↔ g.currentPlayer = PlayerPtr.playerB) ∧
      (g.turn = true ↔ g.currentPlayerColor = PLAYER.GREEN)) := by
  refine ⟨⟨newGame, CreateGame_eq, rfl, rfl, rfl, rfl, rfl⟩, ?_, ?_, ?_⟩
  · intro g drawn ⟨n, hr⟩ hd h1 h6
    obtain ⟨g1, hg1, hturn, _⟩ := handle_push g drawn (reachableIn_inv n g hr).1 hd h1 h6
    exact ⟨g1, hg1, hturn⟩
  · intro n g hr
    obtain ⟨_, ht, hcp, hcol⟩ := reachableIn_inv n g hr
    constructor
    · intro hodd
      have hf : g.turn = false := by
        rw [ht]; simp; omega
      rw [hcp, hcol, hf]
      exact ⟨rfl, rfl⟩
    · intro heven
      have hf : g.turn = true := by
        rw [ht]; simp; omega
      rw [hcp, hcol, hf]
      exact ⟨rfl, rfl⟩
  · intro g ⟨n, hr⟩
    obtain ⟨_, _, hcp, hcol⟩ := reachableIn_inv n g hr
    rw [hcp, hcol]
    cases g.turn <;> simp

/-- C5: players never leave the board.  In every reachable state both positions lie in
`1..100`; `positionMap` and `squares` have exactly 100 entries; for each player the
subscript `position - 1` of `positionMap` lies in `0..99` and the entry found there, the
subscript of `squares`, lies in `0..99`; and for every event and every roll in `1..6`
`handle` returns without an out-of-bounds access, the subscript `pos + r - 1` used by
`getDestination` lying in `0..99` whenever the bound check lets the move through. -/
theorem positions_on_board (g : SnakeLadderBoardGameWidget) (hr : Reachable g) :
    (1 ≤ g.playerA.position ∧ g.playerA.position ≤ 100) ∧
    (1 ≤ g.playerB.position ∧ g.playerB.position ≤ 100) ∧
    SnakeLadderBoardWidget.new.positionMap.length = 100 ∧
    SnakeLadderBoardWidget.new.squares.length = 100 ∧
    (∀ p : Int, p = g.playerA.position ∨ p = g.playerB.position →
      0 ≤ p - 1 ∧ p - 1 ≤ 99 ∧
      ∃ q : Int, SnakeLadderBoardWidget.new.positionMap[(p - 1).toNat]? = some q ∧
        0 ≤ q ∧ q ≤ 99 ∧
        ∃ sq, SnakeLadderBoardWidget.new.squares[q.toNat]? = some sq) ∧
    (∀ event drawn : Int, 1 ≤ drawn → drawn ≤ 6 →
      (∃ ret g1, handle CreateBoard g event drawn = some (ret, g1) ∧ Reachable g1) ∧
      (g.current.position + drawn ≤ 100 →
        0 ≤ g.current.position + drawn - 1 ∧ g.current.position + drawn - 1 ≤ 99 ∧
        ∃ d, CreateBoard.getDestination (g.current.position + drawn) = some d ∧
          1 ≤ d ∧ d ≤ 100)) := by
  obtain ⟨n, hn⟩ := hr
  have hw := (reachableIn_inv n g hn).1
  have hcur := current_position_range g hw
  have hidx : ∀ p : Int, 1 ≤ p → p ≤ 100 →
      0 ≤ p - 1 ∧ p - 1 ≤ 99 ∧
      ∃ q : Int, SnakeLadderBoardWidget.new.positionMap[(p - 1).toNat]? = some q ∧
        0 ≤ q ∧ q ≤ 99 ∧
        ∃ sq, SnakeLadderBoardWidget.new.squares[q.toNat]? = some sq := by
    intro p hp1 hp2
    obtain ⟨m, rfl⟩ : ∃ m : Nat, p = (m : Int) + 1 := ⟨(p - 1).toNat, by omega⟩
    have hm : m < 100 := by omega
    have hs := specDestination_facts m hm
    have h3 : ((m : Int) + 1 - 1).toNat = m := by omega
    refine ⟨by omega, by omega, specDestination ((m : Int) + 1) - 1, ?_, by omega, by omega, ?_⟩
    · rw [h3]; exact positionMap_lookup m hm
    · have hlt : (specDestination ((m : Int) + 1) - 1).toNat <
          SnakeLadderBoardWidget.new.squares.length := by
        rw [squares_length]; omega
      exact ⟨_, List.getElem?_eq_getElem hlt⟩
  refine ⟨hw.1, hw.2.1, by rw [positionMap_new]; rfl, squares_length, ?_, ?_⟩
  · intro p hp
    rcases hp with rfl | rfl
    · exact hidx _ hw.1.1 hw.1.2
    · exact hidx _ hw.2.1.1 hw.2.1.2
  · intro event drawn h1 h6
    constructor
    · by_cases hc : g.gameDone = false ∧ event = FL_PUSH
      · obtain ⟨hd, rfl⟩ := hc
        obtain ⟨g1, hg1, _⟩ := handle_push g drawn hw hd h1 h6
        exact ⟨1, g1, hg1, n + 1, ReachableIn.press n g g1 FL_PUSH drawn hn h1 h6 hg1⟩
      · exact ⟨0, g, handle_ignored _ g event drawn hc, n, hn⟩
    · intro hle
      have hs := specDestination_range (g.current.position + drawn) (by omega) hle
      exact ⟨by omega, by omega, _, getDestination_eq _ (by omega) hle, hs.1, hs.2⟩

/-- Witness for C5: the state right after `CreateGame`. -/
theorem positions_on_board_witness :
    (1 ≤ newGame.playerA.position ∧ newGame.playerA.position ≤ 100) ∧
    (1 ≤ newGame.playerB.position ∧ newGame.playerB.position ≤ 100) :=
  have h := positions_on_board newGame ⟨0, ReachableIn.init newGame CreateGame_eq⟩
  ⟨h.1, h.2.1⟩

end SnakeLadder

namespace SnakeLadder

/-- A sample game: Red rolls 3 and climbs the ladder from 4 to 56, then Green rolls 5 and
moves to 6; Red is to move again. -/
theorem reachable_sample :
    ∃ g, ReachableIn 2 g ∧ g.playerA.position = 56 ∧ g.playerB.position = 6 ∧
      g.currentPlayer = PlayerPtr.playerA ∧ g.gameDone = false := by
  have h0 : ReachableIn 0 newGame := ReachableIn.init newGame CreateGame_eq
  obtain ⟨g1, hg1, ht1, hc1, _, hA1, hB1, hd1, _⟩ :=
    handle_push newGame 3 newGame_wellFormed rfl (by decide) (by decide)
  have hr1 : ReachableIn 1 g1 :=
    ReachableIn.press 0 newGame g1 FL_PUSH 3 h0 (by decide) (by decide) hg1
  have hw1 := (reachableIn_inv 1 g1 hr1).1
  have hA1v : g1.playerA.position = 56 := by rw [hA1]; decide
  have hB1v : g1.playerB.position = 1 := by rw [hB1]; decide
  have hc1v : g1.currentPlayer = PlayerPtr.playerB := by rw [hc1]; decide
  have hcur1 : g1.current.position = 1 := by
    unfold SnakeLadderBoardGameWidget.current
    rw [hc1v]
    exact hB1v
  have hdone1 : g1.gameDone = false := by
    cases hb : g1.gameDone
    · rfl
    · exact absurd (hd1.1 hb).2 (by decide)
  obtain ⟨g2, hg2, _, hc2, _, hA2, hB2, hd2, _⟩ :=
    handle_push g1 5 hw1 hdone1 (by decide) (by decide)
  refine ⟨g2, ReachableIn.press 1 g1 g2 FL_PUSH 5 hr1 (by decide) (by decide) hg2, ?_, ?_, ?_, ?_⟩
  · rw [hA2, hc1v, hA1v, if_neg (fun h => absurd h.1 (by decide))]
  · rw [hB2, hc1v, hcur1, if_pos ⟨rfl, by decide⟩]; decide
  · rw [hc2, ht1]; decide
  · cases hb : g2.gameDone
    · rfl
    · have := (hd2.1 hb).2
      rw [hcur1] at this
      exact absurd this (by decide)

end SnakeLadder

namespace SnakeLadder

theorem diceMessage_ne (c : PLAYER) (drawn : Int) (h1 : 1 ≤ drawn) (h6 : drawn ≤ 6) :
    (if c = PLAYER.GREEN then "Green: " else "Red: ") ++ "Dice roll: " ++ toString drawn.toNat
        ≠ "Wow!!great luck" ∧
    (if c = PLAYER.GREEN then "Green: " else "Red: ") ++ "Dice roll: " ++ toString drawn.toNat
        ≠ "Oops!! bad luck" ∧
    (if c = PLAYER.GREEN then "Green: " else "Red: ") ++ "Dice roll: " ++ toString drawn.toNat
        = (if c = PLAYER.GREEN then "Green" else "Red") ++ ": Dice roll: "
            ++ toString drawn.toNat := by
  interval_cases drawn <;> cases c <;> decide

theorem winMessage_ne (c : PLAYER) :
    "\nCongratulations!!\n" ++ (if c = PLAYER.GREEN then "Green wins" else "Red wins")
        ≠ "Wow!!great luck" ∧
    "\nCongratulations!!\n" ++ (if c = PLAYER.GREEN then "Green wins" else "Red wins")
        ≠ "Oops!! bad luck" := by
  cases c <;> decide

/-- C9: the four forms of the score board message.  For a handled press with dice total
`t = pos + r` (`r` in `1..6`): the win message when `t = 100`; `Wow!!great luck` exactly
when `t` is one of the ladder squares; `Oops!! bad luck` exactly when `t` is one of the
snake squares; and in every other case, `t > 100` included, the roller's colour (`Green`
for `GREEN`, `Red` otherwise) followed by `: Dice roll: ` and the roll in decimal. -/
theorem scoreboard_message (g : SnakeLadderBoardGameWidget) (drawn : Int)
    (hw : WellFormed g) (hd : g.gameDone = false) (h1 : 1 ≤ drawn) (h6 : drawn ≤ 6) :
    ∃ g1, handle CreateBoard g FL_PUSH drawn = some (1, g1) ∧
      (g.current.position + drawn = 100 →
        g1.scoreboard.msg = "\nCongratulations!!\n" ++
          (if g.currentPlayerColor = PLAYER.GREEN then "Green wins" else "Red wins")) ∧
      (g1.scoreboard.msg = "Wow!!great luck" ↔ g.current.position + drawn ∈ ladderSquares) ∧
      (g1.scoreboard.msg = "Oops!! bad luck" ↔ g.current.position + drawn ∈ snakeSquares) ∧
      (g.current.position + drawn ≠ 100 → g.current.position + drawn ∉ ladderSquares →
        g.current.position + drawn ∉ snakeSquares →
        g1.scoreboard.msg =
          (if g.currentPlayerColor = PLAYER.GREEN then "Green" else "Red") ++ ": Dice roll: "
            ++ toString drawn.toNat) := by
  have hcur := current_position_range g hw
  obtain ⟨g1, hg1, _, _, _, _, _, _, hmsg, _⟩ := handle_push g drawn hw hd h1 h6
  obtain ⟨hd1, hd2, hd3⟩ := diceMessage_ne g.currentPlayerColor drawn h1 h6
  obtain ⟨hw1, hw2⟩ := winMessage_ne g.currentPlayerColor
  have hWO : "Wow!!great luck" ≠ "Oops!! bad luck" := by decide
  have hlad : ∀ t : Int, t ∈ ladderSquares → 1 ≤ t ∧ t < 100 := by
    intro t ht
    simp only [ladderSquares, List.mem_cons, List.mem_singleton, List.not_mem_nil,
      or_false] at ht
    omega
  have hsnk : ∀ t : Int, t ∈ snakeSquares → 1 ≤ t ∧ t < 100 := by
    intro t ht
    simp only [snakeSquares, List.mem_cons, List.mem_singleton, List.not_mem_nil,
      or_false] at ht
    omega
  refine ⟨g1, hg1, ?_, ?_, ?_, ?_⟩
  · intro ht
    have hs : specDestination (g.current.position + drawn) = 100 := by rw [ht]; rfl
    rw [hmsg, if_neg (by omega), if_pos hs]
  · rw [hmsg]
    by_cases hgt : g.current.position + drawn > 100
    · rw [if_pos hgt]
      constructor
      · intro h; exact absurd h hd1
      · intro h; have := hlad _ h; omega
    · have hle : g.current.position + drawn ≤ 100 := by omega
      have hL := specDestination_gt _ (by omega : 1 ≤ g.current.position + drawn) hle
      have hS := specDestination_lt _ (by omega : 1 ≤ g.current.position + drawn) hle
      rw [if_neg hgt]
      by_cases h100 : specDestination (g.current.position + drawn) = 100
      · rw [if_pos h100]
        have ht := (specDestination_eq_100 _ (by omega) hle).1 h100
        constructor
        · intro h; exact absurd h hw1
        · intro h; have := hlad _ h; omega
      · rw [if_neg h100]
        by_cases hup : specDestination (g.current.position + drawn) > g.current.position + drawn
        · rw [if_pos hup]
          exact ⟨fun _ => hL.1 hup, fun _ => rfl⟩
        · rw [if_neg hup]
          have hnl : g.current.position + drawn ∉ ladderSquares := fun h => hup (hL.2 h)
          by_cases hdn :
              specDestination (g.current.position + drawn) < g.current.position + drawn
          · rw [if_pos hdn]
            exact ⟨fun h => absurd h.symm hWO, fun h => absurd h hnl⟩
          · rw [if_neg hdn]
            exact ⟨fun h => absurd h hd1, fun h => absurd h hnl⟩
  · rw [hmsg]
    by_cases hgt : g.current.position + drawn > 100
    · rw [if_pos hgt]
      constructor
      · intro h; exact absurd h hd2
      · intro h; have := hsnk _ h; omega
    · have hle : g.current.position + drawn ≤ 100 := by omega
      have hL := specDestination_gt _ (by omega : 1 ≤ g.current.position + drawn) hle
      have hS := specDestination_lt _ (by omega : 1 ≤ g.current.position + drawn) hle
      rw [if_neg hgt]
      by_cases h100 : specDestination (g.current.position + drawn) = 100
      · rw [if_pos h100]
        have ht := (specDestination_eq_100 _ (by omega) hle).1 h100
        constructor
        · intro h; exact absurd h hw2
        · intro h; have := hsnk _ h; omega
      · rw [if_neg h100]
        by_cases hup : specDestination (g.current.position + drawn) > g.current.position + drawn
        · rw [if_pos hup]
          have hns : g.current.position + drawn ∉ snakeSquares := by
            intro h; have := hS.2 h; omega
          exact ⟨fun h => absurd h hWO, fun h => absurd h hns⟩
        · rw [if_neg hup]
          by_cases hdn :
              specDestination (g.current.position + drawn) < g.current.position + drawn
          · rw [if_pos hdn]
            exact ⟨fun _ => hS.1 hdn, fun _ => rfl⟩
          · rw [if_neg hdn]
            have hns : g.current.position + drawn ∉ snakeSquares := fun h => hdn (hS.2 h)
            exact ⟨fun h => absurd h hd2, fun h => absurd h hns⟩
  · intro hne hnl hns
    rw [hmsg]
    by_cases hgt : g.current.position + drawn > 100
    · rw [if_pos hgt]; exact hd3
    · have hle : g.current.position + drawn ≤ 100 := by omega
      have hL := specDestination_gt _ (by omega : 1 ≤ g.current.position + drawn) hle
      have hS := specDestination_lt _ (by omega : 1 ≤ g.current.position + drawn) hle
      have h100 : ¬ specDestination (g.current.position + drawn) = 100 := fun h =>
        hne ((specDestination_eq_100 _ (by omega) hle).1 h)
      rw [if_neg hgt, if_neg h100, if_neg (fun h => hnl (hL.1 h)),
        if_neg (fun h => hns (hS.1 h))]
      exact hd3

/-- Witness for C9: Red on 97 rolls a 1 and plainly moves to 98. -/
theorem scoreboard_message_witness :
    ∃ g1, handle CreateBoard lateGame FL_PUSH 1 = some (1, g1) ∧
      g1.scoreboard.msg = "Red: Dice roll: 1" := by
  obtain ⟨g1, hg1, _, _, _, hplain⟩ :=
    scoreboard_message lateGame 1 (by decide) rfl (by decide) (by decide)
  exact ⟨g1, hg1, hplain (by decide) (by decide) (by decide)⟩

end SnakeLadder

namespace SnakeLadder

/-! ## The dice: claim C6 -/

/-- C6: `DiceWidget::roll`.  For a dice widget as its constructor builds it (distribution
bounds 1 and 6, the six loaded faces) and a value drawn by the distribution within its
bounds, `roll` returns that value `r`, `1 ≤ r ≤ 6`; the subscript `r - 1` lies inside the
six-element array `diceFaces`; and `currentFace` becomes `diceFaces[r - 1]`, which is
the image loaded from `dice_<r>.png`. -/
theorem roll_shows_face (d : DiceWidget) (drawn : Int)
    (hdist : d.dist = DiceWidget.new.dist) (hF : d.diceFaces = DiceWidget.new.diceFaces)
    (hlo : d.dist.1 ≤ drawn) (hhi : drawn ≤ d.dist.2) :
    ∃ r d1, d.roll drawn = some (r, d1) ∧ (r : Int) = drawn ∧ 1 ≤ r ∧ r ≤ 6 ∧
      d.diceFaces.length = 6 ∧ r - 1 < d.diceFaces.length ∧
      d.diceFaces[r - 1]? = some d1.currentFace ∧
      d1.currentFace = some (Fl_PNG_Image.mk ("dice_" ++ toString r ++ ".png")) ∧
      d1.diceFaces = d.diceFaces ∧ d1.dist = d.dist := by
  have hd : DiceWidget.new.dist = (1, 6) := rfl
  rw [hdist, hd] at hlo hhi
  have h1 : 1 ≤ drawn := hlo
  have h6 : drawn ≤ 6 := hhi
  refine ⟨drawn.toNat, _, roll_eq d hF drawn h1 h6, by omega, by omega, by omega, ?_, ?_, ?_,
    rfl, rfl, rfl⟩
  · rw [hF, diceFaces_new]; rfl
  · rw [hF, diceFaces_new]; simp only [List.length_cons, List.length_nil]; omega
  · rw [hF, diceFaces_new]
    interval_cases drawn <;> rfl

/-- Witness for C6: a freshly constructed dice on which the distribution draws 4. -/
theorem roll_shows_face_witness :
    ∃ r d1, DiceWidget.new.roll 4 = some (r, d1) ∧ (r : Int) = 4 ∧ 1 ≤ r ∧ r ≤ 6 ∧
      DiceWidget.new.diceFaces.length = 6 ∧ r - 1 < DiceWidget.new.diceFaces.length ∧
      DiceWidget.new.diceFaces[r - 1]? = some d1.currentFace ∧
      d1.currentFace = some (Fl_PNG_Image.mk ("dice_" ++ toString r ++ ".png")) ∧
      d1.diceFaces = DiceWidget.new.diceFaces ∧ d1.dist = DiceWidget.new.dist :=
  roll_shows_face DiceWidget.new 4 rfl rfl (by decide) (by decide)

/-! ## The sound driver: claim C8 -/

theorem loopBody_stopped (reads : List Int) (st : PlayState) (h : st.inLoop = false) :
    reads.foldl loopBody st = st := by
  induction reads with
  | nil => rfl
  | cons b rest ih =>
    have hb : loopBody st b = st := by
      unfold loopBody
      rw [if_pos h]
    rw [List.foldl_cons, hb, ih]

theorem loopBody_nonneg (st : PlayState) (b : Int) (h : st.inLoop = true) (hb : 0 ≤ b) :
    loopBody st b = { trace := st.trace ++ opsOfRead b, inLoop := true } := by
  unfold loopBody opsOfRead
  have h0 : ¬ st.inLoop = false := by rw [h]; decide
  rw [if_neg h0]
  by_cases hz : b = 0
  · rw [if_pos hz, if_pos hz]
  · rw [if_neg hz, if_neg hz, if_neg (by omega)]

theorem loopBody_negative (st : PlayState) (b : Int) (h : st.inLoop = true) (hb : b < 0) :
    loopBody st b =
      { trace := st.trace ++ [SoundOp.read, SoundOp.readError], inLoop := false } := by
  unfold loopBody
  have h0 : ¬ st.inLoop = false := by rw [h]; decide
  rw [if_neg h0, if_neg (by omega), if_pos hb]

theorem foldl_loopBody_nonneg (reads : List Int) :
    ∀ st : PlayState, st.inLoop = true → (∀ b ∈ reads, 0 ≤ b) →
      reads.foldl loopBody st =
        { trace := st.trace ++ reads.flatMap opsOfRead, inLoop := true } := by
  induction reads with
  | nil =>
    intro st h _
    cases st
    simp_all
  | cons b rest ih =>
    intro st h hall
    have hb : 0 ≤ b := hall b (List.mem_cons_self b rest)
    rw [List.foldl_cons, loopBody_nonneg st b h hb,
      ih _ rfl (fun x hx => hall x (List.mem_cons_of_mem b hx))]
    simp [List.flatMap_cons]

theorem foldl_loopBody_exit (reads : List Int) :
    ∀ st : PlayState, st.inLoop = true →
      ((reads.foldl loopBody st).inLoop = false ↔ ∃ b ∈ reads, b < 0) := by
  induction reads with
  | nil =>
    intro st h
    simp [h]
  | cons b rest ih =>
    intro st h
    rw [List.foldl_cons]
    by_cases hb : b < 0
    · rw [loopBody_negative st b h hb, loopBody_stopped rest _ rfl]
      simp only [true_iff]
      exact ⟨b, List.mem_cons_self b rest, hb⟩
    · rw [loopBody_nonneg st b h (by omega), ih _ rfl]
      constructor
      · rintro ⟨x, hx, hneg⟩
        exact ⟨x, List.mem_cons_of_mem b hx, hneg⟩
      · rintro ⟨x, hx, hneg⟩
        rcases List.mem_cons.1 hx with rfl | hx
        · exact absurd hneg hb
        · exact ⟨x, hx, hneg⟩

/-- C8: the playback loop of `playSound_linux` on the file `snake.wav`.  As long as no
`read` has returned a negative value the loop is still running, and its calls are, after
opening `snake.wav`, one `read` per result followed by a seek to the start of the file
when the result was 0 and by a write to the PCM device when it was positive; the first
negative result ends the loop (an error message, then drain, close and free), later
results are never asked for; and the loop is left only if some `read` returned a negative
value. -/
theorem playback_loop :
    (∀ reads : List Int, (∀ b ∈ reads, 0 ≤ b) →
      playSound reads =
        { trace := [SoundOp.openFile "snake.wav"] ++ reads.flatMap opsOfRead,
          inLoop := true }) ∧
    (opsOfRead 0 = [SoundOp.read, SoundOp.lseekStart] ∧
      ∀ b : Int, 0 < b → opsOfRead b = [SoundOp.read, SoundOp.pcmWrite]) ∧
    (∀ (pre post : List Int) (b : Int), (∀ x ∈ pre, 0 ≤ x) → b < 0 →
      playSound (pre ++ b :: post) =
        { trace := [SoundOp.openFile "snake.wav"] ++ pre.flatMap opsOfRead ++
            [SoundOp.read, SoundOp.readError] ++
            [SoundOp.pcmDrain, SoundOp.pcmClose, SoundOp.free],
          inLoop := false }) ∧
    (∀ reads : List Int, (playSound reads).inLoop = false ↔ ∃ b ∈ reads, b < 0) := by
  refine ⟨?_, ⟨rfl, ?_⟩, ?_, ?_⟩
  · intro reads hall
    unfold playSound playSound_linux playLoop
    rw [foldl_loopBody_nonneg reads _ rfl hall]
    rfl
  · intro b hb
    unfold opsOfRead
    rw [if_neg (by omega)]
  · intro pre post b hpre hb
    unfold playSound playSound_linux playLoop
    rw [List.foldl_append, foldl_loopBody_nonneg pre _ rfl hpre, List.foldl_cons,
      loopBody_negative _ b rfl hb, loopBody_stopped post _ rfl]
    rfl
  · intro reads
    have h := foldl_loopBody_exit reads
      { trace := [SoundOp.openFile MUSICFILENAME], inLoop := true } rfl
    unfold playSound playSound_linux playLoop
    rw [← h]
    cases hl : (List.foldl loopBody
      { trace := [SoundOp.openFile MUSICFILENAME], inLoop := true } reads).inLoop <;> simp [hl]

end SnakeLadder

namespace SnakeLadder

/-- A sample run of the playback loop: two full reads, the end of the file, another read,
then a failing read; the sixth result is never asked for. -/
theorem playSound_sample :
    playSound [4096, 4096, 0, 4096, -1, 4096] =
      { trace := [SoundOp.openFile "snake.wav",
                  SoundOp.read, SoundOp.pcmWrite, SoundOp.read, SoundOp.pcmWrite,
                  SoundOp.read, SoundOp.lseekStart, SoundOp.read, SoundOp.pcmWrite,
                  SoundOp.read, SoundOp.readError,
                  SoundOp.pcmDrain, SoundOp.pcmClose, SoundOp.free],
        inLoop := false } := by
  decide

end SnakeLadder

namespace SoundFX

/-! ## Format detection in `LoadSound`: claim C7 -/

theorem initialSampleFormat_adpcm (env : SoundEnv)
    (h : initialSampleFormat env = FormatType.IMA4 ∨
      initialSampleFormat env = FormatType.MSADPCM) :
    env.sfinfo.channels ≤ 2 ∧ env.sfinfo.format &&& SF_FORMAT_TYPEMASK = SF_FORMAT_WAV := by
  unfold initialSampleFormat at h
  simp only [] at h
  split at h
  · split at h <;> simp at h
  · split at h
    · split at h
      · rename_i hc; exact ⟨hc.1, hc.2.1⟩
      · simp at h
    · split at h
      · split at h
        · rename_i hc; exact ⟨hc.1, hc.2.1⟩
        · simp at h
      · simp at h

theorem adpcmBlockAlign_format (env : SoundEnv) (sf : FormatType) (l : SampleLayout)
    (h : adpcmBlockAlign env sf = some l) :
    l.sample_format = sf ∨ l.sample_format = FormatType.Int16 := by
  unfold adpcmBlockAlign at h
  simp only [] at h
  repeat' split at h
  all_goals (cases h <;> first | exact Or.inr rfl | simp_all)

theorem adpcmBlockAlign_some (env : SoundEnv) (sf : FormatType)
    (hc : env.sfinfo.channels ≠ 0) : ∃ l, adpcmBlockAlign env sf = some l := by
  unfold adpcmBlockAlign
  simp only []
  repeat' split
  all_goals exact ⟨_, rfl⟩

theorem pcmBlockAlign_format (channels : Int) (l : SampleLayout) :
    (pcmBlockAlign channels l).sample_format = l.sample_format := by
  unfold pcmBlockAlign
  repeat' split
  all_goals rfl

theorem detectFormat_other (channels : Int) (sf : FormatType) (amb : Int)
    (h1 : channels ≠ 1) (h2 : channels ≠ 2) (h3 : channels ≠ 3) (h4 : channels ≠ 4) :
    detectFormat channels sf amb = ALenum.AL_NONE := by
  unfold detectFormat
  rw [if_neg h1, if_neg h2, if_neg h3, if_neg h4]

end SoundFX

namespace SoundFX

theorem chooseSampleLayout_adpcm (env : SoundEnv) (l : SampleLayout)
    (h : chooseSampleLayout env = some l)
    (hf : l.sample_format = FormatType.IMA4 ∨ l.sample_format = FormatType.MSADPCM) :
    env.sfinfo.channels ≤ 2 ∧ env.sfinfo.format &&& SF_FORMAT_TYPEMASK = SF_FORMAT_WAV := by
  unfold chooseSampleLayout at h
  cases ha : adpcmBlockAlign env (initialSampleFormat env) with
  | none => rw [ha] at h; cases h
  | some l0 =>
    rw [ha] at h
    have hl : pcmBlockAlign env.sfinfo.channels l0 = l := Option.some.inj h
    have hp := pcmBlockAlign_format env.sfinfo.channels l0
    rw [hl] at hp
    apply initialSampleFormat_adpcm
    rcases adpcmBlockAlign_format env _ l0 ha with h0 | h0
    · rw [← h0, ← hp]; exact hf
    · rw [← hp] at h0
      rcases hf with h1 | h1 <;> rw [h1] at h0 <;> cases h0

theorem chooseSampleLayout_some (env : SoundEnv) (hc : env.sfinfo.channels ≠ 0) :
    ∃ l, chooseSampleLayout env = some l := by
  obtain ⟨l0, h0⟩ := adpcmBlockAlign_some env (initialSampleFormat env) hc
  exact ⟨_, by unfold chooseSampleLayout; rw [h0]; rfl⟩

/-- C7: format detection in `LoadSound`.  The format handed to OpenAL is `detectFormat`
of the channel count, the chosen sample type and the ambisonic answer.  For 1 and 2
channels it is the mono or stereo format of the sample type, never `AL_NONE`; for 3 and
4 channels it is a format exactly when the file is ambisonic B-format and the sample
type is `Int16` or `Float` (the 2D formats for 3, the 3D formats for 4); for every other
channel count it is `AL_NONE`, and then `LoadSound`, whenever it returns, returns through
the "Unsupported channel count" exit, before `malloc` and `alGenBuffers` (and it does
return for every channel count other than 0).  An ADPCM sample type is chosen only for a
WAV file with at most 2 channels. -/
theorem format_detection :
    (∀ (env : SoundEnv) (format : ALenum) (spl num_bytes : Int),
      LoadSound env = some (LoadResult.loaded format spl num_bytes) →
      ∃ l, chooseSampleLayout env = some l ∧
        format = detectFormat env.sfinfo.channels l.sample_format env.ambisonic) ∧
    (∀ amb : Int,
      detectFormat 1 FormatType.Int16 amb = ALenum.AL_FORMAT_MONO16 ∧
      detectFormat 1 FormatType.Float amb = ALenum.AL_FORMAT_MONO_FLOAT32 ∧
      detectFormat 1 FormatType.IMA4 amb = ALenum.AL_FORMAT_MONO_IMA4 ∧
      detectFormat 1 FormatType.MSADPCM amb = ALenum.AL_FORMAT_MONO_MSADPCM_SOFT ∧
      detectFormat 2 FormatType.Int16 amb = ALenum.AL_FORMAT_STEREO16 ∧
      detectFormat 2 FormatType.Float amb = ALenum.AL_FORMAT_STEREO_FLOAT32 ∧
      detectFormat 2 FormatType.IMA4 amb = ALenum.AL_FORMAT_STEREO_IMA4 ∧
      detectFormat 2 FormatType.MSADPCM amb = ALenum.AL_FORMAT_STEREO_MSADPCM_SOFT) ∧
    (∀ (sf : FormatType) (amb : Int),
      detectFormat 1 sf amb ≠ ALenum.AL_NONE ∧ detectFormat 2 sf amb ≠ ALenum.AL_NONE) ∧
    (∀ (sf : FormatType) (amb : Int),
      (detectFormat 3 sf amb ≠ ALenum.AL_NONE ↔
        amb = SF_AMBISONIC_B_FORMAT ∧ (sf = FormatType.Int16 ∨ sf = FormatType.Float)) ∧
      (detectFormat 4 sf amb ≠ ALenum.AL_NONE ↔
        amb = SF_AMBISONIC_B_FORMAT ∧ (sf = FormatType.Int16 ∨ sf = FormatType.Float))) ∧
    (detectFormat 3 FormatType.Int16 SF_AMBISONIC_B_FORMAT = ALenum.AL_FORMAT_BFORMAT2D_16 ∧
      detectFormat 3 FormatType.Float SF_AMBISONIC_B_FORMAT
        = ALenum.AL_FORMAT_BFORMAT2D_FLOAT32 ∧
      detectFormat 4 FormatType.Int16 SF_AMBISONIC_B_FORMAT = ALenum.AL_FORMAT_BFORMAT3D_16 ∧
      detectFormat 4 FormatType.Float SF_AMBISONIC_B_FORMAT
        = ALenum.AL_FORMAT_BFORMAT3D_FLOAT32) ∧
    (∀ (channels : Int) (sf : FormatType) (amb : Int),
      channels ≠ 1 → channels ≠ 2 → channels ≠ 3 → channels ≠ 4 →
      detectFormat channels sf amb = ALenum.AL_NONE) ∧
    (∀ env : SoundEnv, env.opened = true → 1 ≤ env.sfinfo.frames →
      env.sfinfo.channels ≠ 1 → env.sfinfo.channels ≠ 2 →
      env.sfinfo.channels ≠ 3 → env.sfinfo.channels ≠ 4 →
      (∀ r, LoadSound env = some r →
        r = LoadResult.unsupportedChannelCount env.sfinfo.channels) ∧
      (env.sfinfo.channels ≠ 0 →
        LoadSound env = some (LoadResult.unsupportedChannelCount env.sfinfo.channels)) ∧
      (LoadResult.unsupportedChannelCount env.sfinfo.channels).message =
        some ("Unsupported channel count: " ++ toString env.sfinfo.channels) ∧
      (LoadResult.unsupportedChannelCount env.sfinfo.channels).membufAllocated = false ∧
      (LoadResult.unsupportedChannelCount env.sfinfo.channels).bufferGenerated = false) ∧
    (∀ (env : SoundEnv) (l : SampleLayout), chooseSampleLayout env = some l →
      l.sample_format = FormatType.IMA4 ∨ l.sample_format = FormatType.MSADPCM →
      env.sfinfo.channels ≤ 2 ∧
        env.sfinfo.format &&& SF_FORMAT_TYPEMASK = SF_FORMAT_WAV) := by
  refine ⟨?_, ?_, ?_, ?_, ⟨rfl, rfl, rfl, rfl⟩, detectFormat_other, ?_,
    chooseSampleLayout_adpcm⟩
  · intro env format spl num_bytes h
    unfold LoadSound at h
    split at h
    · cases h
    · split at h
      · cases h
      · split at h
        · cases h
        · rename_i l hl
          refine ⟨l, hl, ?_⟩
          simp only [] at h
          split at h
          · cases h
          · unfold decodeAndBuffer at h
            simp only [] at h
            repeat' split at h
            all_goals first
              | (cases h; done)
              | (injection h with h; injection h with h1 h2 h3; exact h1.symm)
  · intro amb
    exact ⟨rfl, rfl, rfl, rfl, rfl, rfl, rfl, rfl⟩
  · intro sf amb
    cases sf <;> constructor <;> intro h <;> cases h
  · intro sf amb
    unfold detectFormat
    by_cases ha : amb = SF_AMBISONIC_B_FORMAT
    · cases sf <;> simp [ha]
    · cases sf <;> simp [ha]
  · intro env ho hfr h1 h2 h3 h4
    have hnone : ∀ sf, detectFormat env.sfinfo.channels sf env.ambisonic = ALenum.AL_NONE :=
      fun sf => detectFormat_other _ sf _ h1 h2 h3 h4
    have hL : ∀ l, chooseSampleLayout env = some l →
        LoadSound env = some (LoadResult.unsupportedChannelCount env.sfinfo.channels) := by
      intro l hl
      unfold LoadSound
      rw [if_neg (by rw [ho]; decide), if_neg (by omega), hl]
      simp only [hnone, if_true]
    refine ⟨?_, ?_, rfl, rfl, rfl⟩
    · intro r hr
      cases hl : chooseSampleLayout env with
      | none =>
        unfold LoadSound at hr
        rw [if_neg (by rw [ho]; decide), if_neg (by omega), hl] at hr
        cases hr
      | some l =>
        rw [hL l hl] at hr
        exact (Option.some.inj hr).symm
    · intro h0
      obtain ⟨l, hl⟩ := chooseSampleLayout_some env h0
      exact hL l hl

end SoundFX

namespace SoundFX

/-! Sample runs of `LoadSound`. -/

theorem LoadSound_monoPcm :
    LoadSound monoPcmEnv = some (LoadResult.loaded ALenum.AL_FORMAT_MONO16 1 2000) := by
  decide

theorem LoadSound_stereoIma :
    chooseSampleLayout stereoImaEnv =
      some { sample_format := FormatType.IMA4, byteblockalign := 72, splblockalign := 65 } ∧
    LoadSound stereoImaEnv = some (LoadResult.loaded ALenum.AL_FORMAT_STEREO_IMA4 65 7200) := by
  decide

theorem LoadSound_sixChannel :
    LoadSound sixChannelEnv = some (LoadResult.unsupportedChannelCount 6) := by
  decide

end SoundFX

namespace SnakeLadder

/-! ## The dice destructor: claim C17 -/

theorem destructorLoop_new (fuel : Nat) :
    DiceWidget.new.destructorLoop (fuel + 7) 0 [] = some [1, 2, 3, 4, 5, 6] := by
  have hlen : DiceWidget.new.diceFaces.length = 6 := by rw [diceFaces_new]; rfl
  simp [DiceWidget.destructorLoop, hlen]

/-- C17 (as the code behaves): on the dice the constructor builds, the loop of
`~DiceWidget` terminates and evaluates `delete diceFaces[i]` at the subscripts
1, 2, 3, 4, 5, 6 in this order: subscript 0 is never deleted, and subscript 6 is a read
outside the six-element array. -/
theorem destructor_deletes_one_to_six :
    (∀ fuel : Nat, 7 ≤ fuel → DiceWidget.new.destructor fuel = some [1, 2, 3, 4, 5, 6]) ∧
    DiceWidget.new.diceFaces.length = 6 ∧
    (0 : Int) ∉ [1, 2, 3, 4, 5, (6 : Int)] ∧
    DiceWidget.new.faceAt 6 = none ∧
    DiceWidget.new.faceAt 0 = some (some (Fl_PNG_Image.mk "dice_1.png")) := by
  refine ⟨?_, by rw [diceFaces_new]; rfl, by decide, by decide, by decide⟩
  intro fuel hf
  obtain ⟨k, rfl⟩ : ∃ k, fuel = k + 7 := ⟨fuel - 7, by omega⟩
  exact destructorLoop_new k

end SnakeLadder

namespace SnakeLadder

/-! ## Invariants of the positions -/

theorem newGame_settled : Settled newGame := by
  refine ⟨by decide, by decide, ?_, ?_⟩
  · intro _; exact ⟨by decide, by decide⟩
  · intro h; exact absurd h (by decide)

theorem current_position_settled (g : SnakeLadderBoardGameWidget) (hs : Settled g)
    (hd : g.gameDone = false) : g.current.position ≤ 99 := by
  have h := hs.2.2.1 hd
  unfold SnakeLadderBoardGameWidget.current
  cases g.currentPlayer
  · exact h.1
  · exact h.2

/-- A handled press keeps the positions settled. -/
theorem handle_push_settled (g g1 : SnakeLadderBoardGameWidget) (drawn : Int)
    (hw : WellFormed g) (hs : Settled g) (hd : g.gameDone = false)
    (h1 : 1 ≤ drawn) (h6 : drawn ≤ 6)
    (hh : handle CreateBoard g FL_PUSH drawn = some (1, g1)) : Settled g1 := by
  obtain ⟨g2, hg2, _, _, _, hpA, hpB, hdone, _⟩ := handle_push g drawn hw hd h1 h6
  rw [hg2] at hh
  have hEq : g2 = g1 := (Prod.mk.inj (Option.some.inj hh)).2
  subst hEq
  have hcur := current_position_range g hw
  obtain ⟨hfA, hfB, hlt, _⟩ := hs
  have hAB := hlt hd
  have hcur99 : g.current.position ≤ 99 := by
    unfold SnakeLadderBoardGameWidget.current
    cases g.currentPlayer
    · exact hAB.1
    · exact hAB.2
  by_cases hle : g.current.position + drawn ≤ 100
  · have hr := specDestination_range _ (by omega : 1 ≤ g.current.position + drawn) hle
    have hi := specDestination_idem _ (by omega : 1 ≤ g.current.position + drawn) hle
    cases hc : g.currentPlayer
    · have hA : g2.playerA.position = specDestination (g.current.position + drawn) := by
        rw [hpA, if_pos ⟨hc, hle⟩]
      have hB : g2.playerB.position = g.playerB.position := by
        rw [hpB, if_neg (fun h => by rw [hc] at h; exact absurd h.1 (by decide))]
      refine ⟨by rw [hA, hi], by rw [hB, hfB], ?_, ?_⟩
      · intro hf
        have hne : ¬ specDestination (g.current.position + drawn) = 100 := fun h =>
          absurd (hdone.2 ⟨hle, h⟩) (by rw [hf]; decide)
        rw [hA, hB]
        exact ⟨by omega, hAB.2⟩
      · intro ht
        left
        rw [hA, hB]
        exact ⟨(hdone.1 ht).2, hAB.2⟩
    · have hB : g2.playerB.position = specDestination (g.current.position + drawn) := by
        rw [hpB, if_pos ⟨hc, hle⟩]
      have hA : g2.playerA.position = g.playerA.position := by
        rw [hpA, if_neg (fun h => by rw [hc] at h; exact absurd h.1 (by decide))]
      refine ⟨by rw [hA, hfA], by rw [hB, hi], ?_, ?_⟩
      · intro hf
        have hne : ¬ specDestination (g.current.position + drawn) = 100 := fun h =>
          absurd (hdone.2 ⟨hle, h⟩) (by rw [hf]; decide)
        rw [hA, hB]
        exact ⟨hAB.1, by omega⟩
      · intro ht
        right
        rw [hA, hB]
        exact ⟨(hdone.1 ht).2, hAB.1⟩
  · have hA : g2.playerA.position = g.playerA.position := by
      rw [hpA, if_neg (fun h => hle h.2)]
    have hB : g2.playerB.position = g.playerB.position := by
      rw [hpB, if_neg (fun h => hle h.2)]
    refine ⟨by rw [hA, hfA], by rw [hB, hfB], ?_, ?_⟩
    · intro _
      rw [hA, hB]; exact hAB
    · intro ht
      exact absurd (hdone.1 ht).1 hle

theorem reachableIn_settled (n : Nat) (g : SnakeLadderBoardGameWidget)
    (h : ReachableIn n g) : Settled g := by
  induction h with
  | init g hg =>
    rw [CreateGame_eq] at hg
    have hEq : newGame = g := Option.some.inj hg
    subst hEq
    exact newGame_settled
  | press n g g1 event drawn hr h1 h6 hh ih =>
    have hw := (reachableIn_inv n g hr).1
    by_cases hc : g.gameDone = false ∧ event = FL_PUSH
    · obtain ⟨hd, rfl⟩ := hc
      exact handle_push_settled g g1 drawn hw ih hd h1 h6 hh
    · rw [handle_ignored _ g event drawn hc] at hh
      have := (Prod.mk.inj (Option.some.inj hh)).1
      omega
  | ignored n g g1 event drawn hr h1 h6 hh ih =>
    have hw := (reachableIn_inv n g hr).1
    by_cases hc : g.gameDone = false ∧ event = FL_PUSH
    · obtain ⟨hd, rfl⟩ := hc
      obtain ⟨g2, hg2, _⟩ := handle_push g drawn hw hd h1 h6
      rw [hg2] at hh
      have := (Prod.mk.inj (Option.some.inj hh)).1
      omega
    · rw [handle_ignored _ g event drawn hc] at hh
      have hEq : g = g1 := (Prod.mk.inj (Option.some.inj hh)).2
      subst hEq
      exact ih

end SnakeLadder

namespace SnakeLadder

/-! ## The layout of the cells: claim C13 -/

set_option maxRecDepth 100000 in
theorem squares_new : SnakeLadderBoardWidget.new.squares =
    (List.range 100).map (fun (n : Nat) =>
      ({ x := (specPixel ((n : Int) + 1)).1.1 - 5, y := (specPixel ((n : Int) + 1)).1.2 - 5,
         number := (n : Int) + 1 } : Square)) := by
  decide

set_option maxRecDepth 100000 in
theorem getPixelCoordinates_lookup : ∀ n : Nat, n < 100 →
    SnakeLadderBoardWidget.new.getPixelCoordinates ((n : Int) + 1) =
      some (specPixel (specDestination ((n : Int) + 1))) := by
  unfold SnakeLadderBoardWidget.getPixelCoordinates
  rw [positionMap_new, squares_new]
  decide

theorem getPixelCoordinates_eq (p : Int) (h1 : 1 ≤ p) (h100 : p ≤ 100) :
    SnakeLadderBoardWidget.new.getPixelCoordinates p =
      some (specPixel (specDestination p)) := by
  obtain ⟨n, rfl⟩ : ∃ n : Nat, p = (n : Int) + 1 := ⟨(p - 1).toNat, by omega⟩
  exact getPixelCoordinates_lookup n (by omega)

end SnakeLadder

namespace SnakeLadder

theorem specPixel_inj (p q : Int)
    (hx : (specPixel p).1.1 = (specPixel q).1.1) (hy : (specPixel p).1.2 = (specPixel q).1.2) :
    p = q := by
  unfold specPixel at hx hy
  simp only [] at hx hy
  split at hx <;> split at hx <;> omega

/-- C13: a player is drawn on the square it stands on.  Every position `p` a player
holds in a reachable state lies in `1..100` and is its own destination, and
`getPixelCoordinates p` is the cell of the serpentine layout: corner
`(57 j + 36, 57 (9 - r) + 36)` and size `(37, 37)` with `r = (p - 1) / 10`,
`c = (p - 1) mod 10`, `j = c` for even `r` and `9 - c` for odd `r`.  Square 1 is at
`(36, 549)`, square 100 at `(36, 36)`; and for every square `q` of the board, a
redirecting one such as 4 included, `getPixelCoordinates q` is the cell of
`getDestination q`. -/
theorem player_drawn_on_its_square (g : SnakeLadderBoardGameWidget) (hr : Reachable g)
    (p : Int) (hp : p = g.playerA.position ∨ p = g.playerB.position) :
    (1 ≤ p ∧ p ≤ 100) ∧
    SnakeLadderBoardWidget.new.getDestination p = some p ∧
    SnakeLadderBoardWidget.new.getPixelCoordinates p =
      some ((57 * (if (p - 1) / 10 % 2 = 0 then (p - 1) % 10 else 9 - (p - 1) % 10) + 36,
             57 * (9 - (p - 1) / 10) + 36), (37, 37)) ∧
    SnakeLadderBoardWidget.new.getPixelCoordinates 1 = some ((36, 549), (37, 37)) ∧
    SnakeLadderBoardWidget.new.getPixelCoordinates 100 = some ((36, 36), (37, 37)) ∧
    (∀ q : Int, 1 ≤ q → q ≤ 100 →
      ∃ d, SnakeLadderBoardWidget.new.getDestination q = some d ∧
        SnakeLadderBoardWidget.new.getPixelCoordinates q = some (specPixel d)) ∧
    SnakeLadderBoardWidget.new.getPixelCoordinates 4 = some (specPixel 56) ∧
    specPixel 56 = ((264, 264), (37, 37)) ∧ specPixel 4 = ((207, 549), (37, 37)) := by
  obtain ⟨n, hn⟩ := hr
  have hw := (reachableIn_inv n g hn).1
  have hs := reachableIn_settled n g hn
  have hrange : 1 ≤ p ∧ p ≤ 100 := by
    rcases hp with rfl | rfl
    · exact hw.1
    · exact hw.2.1
  have hfix : specDestination p = p := by
    rcases hp with rfl | rfl
    · exact hs.1
    · exact hs.2.1
  refine ⟨hrange, ?_, ?_, getPixelCoordinates_eq 1 (by decide) (by decide),
    getPixelCoordinates_eq 100 (by decide) (by decide), ?_,
    getPixelCoordinates_eq 4 (by decide) (by decide), by decide, by decide⟩
  · rw [getDestination_eq p hrange.1 hrange.2, hfix]
  · rw [getPixelCoordinates_eq p hrange.1 hrange.2, hfix]
    rfl
  · intro q hq1 hq2
    exact ⟨_, getDestination_eq q hq1 hq2, getPixelCoordinates_eq q hq1 hq2⟩

/-- Witness for C13: Red on square 1 right after `CreateGame`. -/
theorem player_drawn_on_its_square_witness :
    SnakeLadderBoardWidget.new.getPixelCoordinates newGame.playerA.position =
      some ((57 * (if (newGame.playerA.position - 1) / 10 % 2 = 0
                   then (newGame.playerA.position - 1) % 10
                   else 9 - (newGame.playerA.position - 1) % 10) + 36,
             57 * (9 - (newGame.playerA.position - 1) / 10) + 36), (37, 37)) :=
  (player_drawn_on_its_square newGame ⟨0, ReachableIn.init newGame CreateGame_eq⟩
    newGame.playerA.position (Or.inl rfl)).2.2.1

end SnakeLadder

namespace SnakeLadder

/-! ## Two players on one square: claim C14 -/

theorem squares_lookup (p : Int) (h1 : 1 ≤ p) (h100 : p ≤ 100) :
    SnakeLadderBoardWidget.new.squares[(p - 1).toNat]? =
      some { x := (specPixel p).1.1 - 5, y := (specPixel p).1.2 - 5, number := p } := by
  obtain ⟨n, rfl⟩ : ∃ n : Nat, p = (n : Int) + 1 := ⟨(p - 1).toNat, by omega⟩
  have h3 : ((n : Int) + 1 - 1).toNat = n := by omega
  have hn : n < 100 := by omega
  rw [h3, squares_new, List.getElem?_map, List.getElem?_range hn]
  rfl

/-- C14: two players on one square are drawn side by side.  After a handled press in a
reachable state, with `(xA, yA)` and `(xB, yB)` the corners `getPixelCoordinates` returns
for the two positions: the corners coincide exactly when the positions are equal; in that
case player A gets the rectangle `(xA - 5, yA, 24, 24)` and player B `(xB + 25, yB, 24, 24)`,
where 24 is `37 * 0.66` truncated, the rectangles do not overlap and both lie inside the
57x57 cell of the square; otherwise each player gets the rectangle `(x, y, 37, 37)` of
its own square. -/
theorem players_side_by_side (g : SnakeLadderBoardGameWidget) (drawn : Int)
    (hr : Reachable g) (hd : g.gameDone = false) (h1 : 1 ≤ drawn) (h6 : drawn ≤ 6) :
    ∃ (g1 : SnakeLadderBoardGameWidget) (xA yA xB yB : Int) (sqA sqB : Square),
      handle CreateBoard g FL_PUSH drawn = some (1, g1) ∧
      CreateBoard.getPixelCoordinates g1.playerA.position = some ((xA, yA), (37, 37)) ∧
      CreateBoard.getPixelCoordinates g1.playerB.position = some ((xB, yB), (37, 37)) ∧
      SnakeLadderBoardWidget.new.squares[(g1.playerA.position - 1).toNat]? = some sqA ∧
      SnakeLadderBoardWidget.new.squares[(g1.playerB.position - 1).toNat]? = some sqB ∧
      ((xA = xB ∧ yA = yB) ↔ g1.playerA.position = g1.playerB.position) ∧
      scale066 37 = 24 ∧
      (g1.playerA.position = g1.playerB.position →
        (g1.playerA.x, g1.playerA.y, g1.playerA.w, g1.playerA.h) = (xA - 5, yA, 24, 24) ∧
        (g1.playerB.x, g1.playerB.y, g1.playerB.w, g1.playerB.h) = (xB + 25, yB, 24, 24) ∧
        g1.playerA.x + g1.playerA.w ≤ g1.playerB.x ∧
        (sqA.x ≤ g1.playerA.x ∧ g1.playerA.x + g1.playerA.w ≤ sqA.x + SQUARE_SIZE ∧
          sqA.y ≤ g1.playerA.y ∧ g1.playerA.y + g1.playerA.h ≤ sqA.y + SQUARE_SIZE) ∧
        (sqB.x ≤ g1.playerB.x ∧ g1.playerB.x + g1.playerB.w ≤ sqB.x + SQUARE_SIZE ∧
          sqB.y ≤ g1.playerB.y ∧ g1.playerB.y + g1.playerB.h ≤ sqB.y + SQUARE_SIZE)) ∧
      (g1.playerA.position ≠ g1.playerB.position →
        (g1.playerA.x, g1.playerA.y, g1.playerA.w, g1.playerA.h) = (xA, yA, 37, 37) ∧
        (g1.playerB.x, g1.playerB.y, g1.playerB.w, g1.playerB.h) = (xB, yB, 37, 37)) := by
  obtain ⟨n, hn⟩ := hr
  have hw := (reachableIn_inv n g hn).1
  have hs := reachableIn_settled n g hn
  obtain ⟨g1, hg1, _, _, _, _, _, _, _, _, _, _, hcA, hcB, hpp⟩ :=
    handle_push g drawn hw hd h1 h6
  have hw1 := handle_wellFormed g g1 FL_PUSH drawn 1 hw h1 h6 hg1
  have hs1 := handle_push_settled g g1 drawn hw hs hd h1 h6 hg1
  have ecA : CreateBoard.getPixelCoordinates g1.playerA.position =
      some (specPixel g1.playerA.position) := by
    have := getPixelCoordinates_eq g1.playerA.position hw1.1.1 hw1.1.2
    rw [hs1.1] at this
    exact this
  have ecB : CreateBoard.getPixelCoordinates g1.playerB.position =
      some (specPixel g1.playerB.position) := by
    have := getPixelCoordinates_eq g1.playerB.position hw1.2.1.1 hw1.2.1.2
    rw [hs1.2.1] at this
    exact this
  have hA : g1.coordinate_playerA = specPixel g1.playerA.position := by
    rw [hcA] at ecA; exact Option.some.inj ecA
  have hB : g1.coordinate_playerB = specPixel g1.playerB.position := by
    rw [hcB] at ecB; exact Option.some.inj ecB
  have hsc : scale066 37 = 24 := by decide
  have hiff : ((specPixel g1.playerA.position).1.1 = (specPixel g1.playerB.position).1.1 ∧
      (specPixel g1.playerA.position).1.2 = (specPixel g1.playerB.position).1.2) ↔
      g1.playerA.position = g1.playerB.position := by
    constructor
    · rintro ⟨hx, hy⟩
      exact specPixel_inj _ _ hx hy
    · intro h
      rw [h]
      exact ⟨rfl, rfl⟩
  have hsize : ∀ q : Int, (specPixel q).2 = (37, 37) := fun _ => rfl
  rw [hA, hB] at hpp
  unfold PositionPlayersOnBoard PlayerWidget.updateCoordinates at hpp
  simp only [hsize, hsc] at hpp
  refine ⟨g1, (specPixel g1.playerA.position).1.1, (specPixel g1.playerA.position).1.2,
    (specPixel g1.playerB.position).1.1, (specPixel g1.playerB.position).1.2, _, _, hg1,
    ecA, ecB, squares_lookup _ hw1.1.1 hw1.1.2, squares_lookup _ hw1.2.1.1 hw1.2.1.2,
    hiff, hsc, ?_, ?_⟩
  · intro heq
    rw [if_pos (hiff.2 heq)] at hpp
    have hpA := (Prod.mk.inj hpp).1
    have hpB := (Prod.mk.inj hpp).2
    have hxy := hiff.2 heq
    rw [hpA, hpB]
    refine ⟨rfl, rfl, ?_, ⟨?_, ?_, ?_, ?_⟩, ⟨?_, ?_, ?_, ?_⟩⟩
    all_goals (simp only [SQUARE_SIZE]; omega)
  · intro hne
    rw [if_neg (fun h => hne (hiff.1 h))] at hpp
    have hpA := (Prod.mk.inj hpp).1
    have hpB := (Prod.mk.inj hpp).2
    rw [hpA, hpB]
    exact ⟨rfl, rfl⟩

/-- Witness for C14: Red, on square 1 next to Green, rolls a 2 and leaves the shared
square. -/
theorem players_side_by_side_witness :
    ∃ (g1 : SnakeLadderBoardGameWidget) (xA yA xB yB : Int),
      handle CreateBoard newGame FL_PUSH 2 = some (1, g1) ∧
      CreateBoard.getPixelCoordinates g1.playerA.position = some ((xA, yA), (37, 37)) ∧
      CreateBoard.getPixelCoordinates g1.playerB.position = some ((xB, yB), (37, 37)) ∧
      ((xA = xB ∧ yA = yB) ↔ g1.playerA.position = g1.playerB.position) := by
  obtain ⟨g1, xA, yA, xB, yB, _, _, hg1, hA, hB, _, _, hiff, _⟩ :=
    players_side_by_side newGame 2 ⟨0, ReachableIn.init newGame CreateGame_eq⟩ rfl
      (by decide) (by decide)
  exact ⟨g1, xA, yA, xB, yB, hg1, hA, hB, hiff⟩

end SnakeLadder

namespace SnakeLadder

/-! ## Winning and the frozen end state: claims C15 and C16 -/

theorem safeRoll_spec (p : Int) (h1 : 1 ≤ p) (h99 : p ≤ 99) :
    1 ≤ safeRoll p ∧ safeRoll p ≤ 6 ∧ p + safeRoll p ≤ 100 ∧
    p + safeRoll p ∉ snakeSquares ∧ p < specDestination (p + safeRoll p) := by
  have hr : 1 ≤ safeRoll p ∧ safeRoll p ≤ 2 ∧ p + safeRoll p ≤ 100 ∧
      p + safeRoll p ∉ snakeSquares := by
    unfold safeRoll
    simp only [snakeSquares, List.mem_cons, List.mem_singleton, List.not_mem_nil, or_false]
    split <;> omega
  refine ⟨hr.1, by omega, hr.2.2.1, hr.2.2.2, ?_⟩
  have hlt := specDestination_lt (p + safeRoll p) (by omega) hr.2.2.1
  have : ¬ specDestination (p + safeRoll p) < p + safeRoll p := fun h => hr.2.2.2 (hlt.1 h)
  omega

theorem pressAll_cons (g g1 : SnakeLadderBoardGameWidget) (drawn ret : Int)
    (rest : List Int) (h : handle CreateBoard g FL_PUSH drawn = some (ret, g1)) :
    pressAll CreateBoard g (drawn :: rest) = pressAll CreateBoard g1 rest := by
  rw [pressAll, h]

/-- From every settled state of a running game some sequence of rolls ends the game; the
measure is the total distance of the two players from square 100. -/
theorem win_from (m : Nat) : ∀ g : SnakeLadderBoardGameWidget, WellFormed g → Settled g →
    g.gameDone = false → 200 - g.playerA.position - g.playerB.position ≤ (m : Int) →
    ∃ rolls : List Int, (∀ r ∈ rolls, 1 ≤ r ∧ r ≤ 6) ∧
      ∃ g1, pressAll CreateBoard g rolls = some g1 ∧ g1.gameDone = true := by
  induction m with
  | zero =>
    intro g _ hs hd hm
    have := hs.2.2.1 hd
    omega
  | succ m ih =>
    intro g hw hs hd hm
    have hcur := current_position_range g hw
    have hcur99 := current_position_settled g hs hd
    obtain ⟨hr1, hr6, hle, _, hup⟩ := safeRoll_spec g.current.position hcur.1 hcur99
    obtain ⟨g1, hg1, _, _, _, hpA, hpB, _⟩ :=
      handle_push g (safeRoll g.current.position) hw hd hr1 hr6
    have hw1 := handle_wellFormed g g1 FL_PUSH _ 1 hw hr1 hr6 hg1
    have hs1 := handle_push_settled g g1 _ hw hs hd hr1 hr6 hg1
    cases hd1 : g1.gameDone
    · have hm1 : 200 - g1.playerA.position - g1.playerB.position ≤ (m : Int) := by
        have hAB := hs.2.2.1 hd
        rw [hpA, hpB]
        unfold SnakeLadderBoardGameWidget.current at hup hle
        cases hc : g.currentPlayer
        · rw [hc] at hup hle
          simp only [] at hup hle
          have e1 : (PlayerPtr.playerA = PlayerPtr.playerA ∧
              g.current.position + safeRoll g.current.position ≤ 100) := by
            unfold SnakeLadderBoardGameWidget.current
            rw [hc]
            exact ⟨rfl, hle⟩
          have e2 : ¬ (PlayerPtr.playerA = PlayerPtr.playerB ∧
              g.current.position + safeRoll g.current.position ≤ 100) :=
            fun h => absurd h.1 (by decide)
          rw [if_pos e1, if_neg e2]
          have e3 : g.current.position = g.playerA.position := by
            unfold SnakeLadderBoardGameWidget.current
            rw [hc]
          rw [e3]
          push_cast at hm ⊢
          omega
        · rw [hc] at hup hle
          simp only [] at hup hle
          have e1 : (PlayerPtr.playerB = PlayerPtr.playerB ∧
              g.current.position + safeRoll g.current.position ≤ 100) := by
            unfold SnakeLadderBoardGameWidget.current
            rw [hc]
            exact ⟨rfl, hle⟩
          have e2 : ¬ (PlayerPtr.playerB = PlayerPtr.playerA ∧
              g.current.position + safeRoll g.current.position ≤ 100) :=
            fun h => absurd h.1 (by decide)
          rw [if_neg e2, if_pos e1]
          have e3 : g.current.position = g.playerB.position := by
            unfold SnakeLadderBoardGameWidget.current
            rw [hc]
          rw [e3]
          push_cast at hm ⊢
          omega
      obtain ⟨rolls, hrolls, g2, hg2, hdone2⟩ := ih g1 hw1 hs1 hd1 hm1
      refine ⟨safeRoll g.current.position :: rolls, ?_, g2, ?_, hdone2⟩
      · intro r hr
        rcases List.mem_cons.1 hr with rfl | hr
        · exact ⟨hr1, hr6⟩
        · exact hrolls r hr
      · rw [pressAll_cons g g1 _ 1 rolls hg1]
        exact hg2
    · refine ⟨[safeRoll g.current.position], ?_, g1, ?_, hd1⟩
      · intro r hr
        rcases List.mem_cons.1 hr with rfl | hr
        · exact ⟨hr1, hr6⟩
        · cases hr
      · rw [pressAll_cons g g1 _ 1 [] hg1]
        rfl

end SnakeLadder

namespace SnakeLadder

/-- C15: the game can always still be won.  From every reachable state with `gameDone`
false there is a finite list of rolls, each in `1..6`, which fed to successive `FL_PUSH`
events leads to a state with `gameDone` true.  No position is a dead end: from every
square `p` in `1..99` some roll in `1..6` lands on a square up to 100 that is not a
snake head (there are never six snake heads in a row), and from 95, 97, 98 and 99 the
exact roll `100 - p` lands on 100. -/
theorem game_can_be_won (g : SnakeLadderBoardGameWidget) (hr : Reachable g)
    (hd : g.gameDone = false) :
    (∃ rolls : List Int, (∀ r ∈ rolls, 1 ≤ r ∧ r ≤ 6) ∧
      ∃ g1, pressAll CreateBoard g rolls = some g1 ∧ g1.gameDone = true) ∧
    (∀ p : Int, 1 ≤ p → p ≤ 99 →
      ∃ r : Int, 1 ≤ r ∧ r ≤ 6 ∧ p + r ≤ 100 ∧ p + r ∉ snakeSquares) ∧
    (∀ p : Int, ∃ r : Int, 1 ≤ r ∧ r ≤ 6 ∧ p + r ∉ snakeSquares) ∧
    (∀ p : Int, p = 95 ∨ p = 97 ∨ p = 98 ∨ p = 99 →
      1 ≤ 100 - p ∧ 100 - p ≤ 6 ∧
      CreateBoard.getDestination (p + (100 - p)) = some 100) := by
  obtain ⟨n, hn⟩ := hr
  have hw := (reachableIn_inv n g hn).1
  have hs := reachableIn_settled n g hn
  have hAB := hs.2.2.1 hd
  refine ⟨win_from (200 - g.playerA.position - g.playerB.position).toNat g hw hs hd
      (by omega), ?_, ?_, ?_⟩
  · intro p h1 h99
    obtain ⟨a, b, c, d, _⟩ := safeRoll_spec p h1 h99
    exact ⟨safeRoll p, a, b, c, d⟩
  · intro p
    by_cases h : p + 1 ∈ snakeSquares
    · refine ⟨2, by decide, by decide, ?_⟩
      simp only [snakeSquares, List.mem_cons, List.mem_singleton, List.not_mem_nil,
        or_false] at h ⊢
      omega
    · exact ⟨1, by decide, by decide, h⟩
  · intro p hp
    have h100 : p + (100 - p) = 100 := by omega
    rw [h100]
    exact ⟨by omega, by omega, getDestination_eq 100 (by decide) (by decide)⟩

/-- Witness for C15: the game can be won from the state right after `CreateGame`. -/
theorem game_can_be_won_witness :
    ∃ rolls : List Int, (∀ r ∈ rolls, 1 ≤ r ∧ r ≤ 6) ∧
      ∃ g1, pressAll CreateBoard newGame rolls = some g1 ∧ g1.gameDone = true :=
  (game_can_be_won newGame ⟨0, ReachableIn.init newGame CreateGame_eq⟩ rfl).1

/-- C16: the game is frozen once won.  In every state with `gameDone` true, `handle`
returns 0 for every event, `FL_PUSH` included, whatever the dice would give and whatever
the board, and leaves the whole state as it is: positions, drawing coordinates, turn,
current player and colour, score board message, dice face and `gameDone`.  Hence no
sequence of presses brings `gameDone` back to false; and in every reachable state
`gameDone` is true exactly when exactly one player stands on square 100. -/
theorem frozen_once_won (g : SnakeLadderBoardGameWidget) (hd : g.gameDone = true) :
    (∀ (board : AbstractBoard) (event drawn : Int),
      handle board g event drawn = some (0, g)) ∧
    (∀ (event drawn ret : Int) (g1 : SnakeLadderBoardGameWidget),
      handle CreateBoard g event drawn = some (ret, g1) →
      g1.playerA = g.playerA ∧ g1.playerB = g.playerB ∧
      g1.coordinate_playerA = g.coordinate_playerA ∧
      g1.coordinate_playerB = g.coordinate_playerB ∧
      g1.turn = g.turn ∧ g1.currentPlayer = g.currentPlayer ∧
      g1.currentPlayerColor = g.currentPlayerColor ∧
      g1.scoreboard = g.scoreboard ∧ g1.dice = g.dice ∧ g1.gameDone = true) ∧
    (∀ rolls : List Int, pressAll CreateBoard g rolls = some g) ∧
    (∀ g2 : SnakeLadderBoardGameWidget, Reachable g2 →
      (g2.gameDone = true ↔
        (g2.playerA.position = 100 ∧ g2.playerB.position ≠ 100) ∨
        (g2.playerA.position ≠ 100 ∧ g2.playerB.position = 100))) := by
  have hnot : ¬ (g.gameDone = false) := by rw [hd]; decide
  have hfix : ∀ (board : AbstractBoard) (event drawn : Int),
      handle board g event drawn = some (0, g) :=
    fun board event drawn => handle_ignored board g event drawn (fun h => hnot h.1)
  refine ⟨hfix, ?_, ?_, ?_⟩
  · intro event drawn ret g1 hh
    rw [hfix] at hh
    have hEq : g = g1 := (Prod.mk.inj (Option.some.inj hh)).2
    subst hEq
    exact ⟨rfl, rfl, rfl, rfl, rfl, rfl, rfl, rfl, rfl, hd⟩
  · intro rolls
    induction rolls with
    | nil => rfl
    | cons r rest ih => rw [pressAll_cons g g r 0 rest (hfix CreateBoard FL_PUSH r), ih]
  · intro g2 ⟨n, hn⟩
    obtain ⟨_, _, hfalse, htrue⟩ := reachableIn_settled n g2 hn
    constructor
    · intro ht
      rcases htrue ht with h | h
      · left; exact ⟨h.1, by omega⟩
      · right; exact ⟨by omega, h.1⟩
    · intro h
      cases hb : g2.gameDone
      · have := hfalse hb
        rcases h with h | h <;> omega
      · rfl

/-- Witness for C16: a finished game in which Red stands on square 100. -/
theorem frozen_once_won_witness :
    handle CreateBoard wonGame FL_PUSH 3 = some (0, wonGame) :=
  (frozen_once_won wonGame rfl).1 CreateBoard FL_PUSH 3

end SnakeLadder

namespace SoundFX

/-! ## ADPCM block alignment: claim C11 -/

theorem fmt_blockalign_range (env : SoundEnv) :
    (((env.fmtbuf 12 % 256) ||| ((env.fmtbuf 13 % 256) <<< 8) : Nat) : Int) ≤ 65535 := by
  have h1 : (env.fmtbuf 13 % 256) <<< 8 < 2 ^ 16 := by
    rw [Nat.shiftLeft_eq]
    have : env.fmtbuf 13 % 256 < 256 := Nat.mod_lt _ (by decide)
    omega
  have h2 : env.fmtbuf 12 % 256 < 2 ^ 16 := by
    have : env.fmtbuf 12 % 256 < 256 := Nat.mod_lt _ (by decide)
    omega
  have h3 : (env.fmtbuf 12 % 256) ||| ((env.fmtbuf 13 % 256) <<< 8) < 2 ^ 16 :=
    Nat.bitwise_lt_two_pow h2 h1
  omega

theorem tdiv_small_neg (q : Int) (h0 : 0 ≤ q) (h4 : q < 4) :
    (q - 4).tdiv 4 = if q = 0 then -1 else 0 := by
  interval_cases q <;> rfl

/-- The IMA4 conversion of a block of `B` bytes for `c` channels, and its check. -/
theorem ima4_check (B c : Int) (hB : 0 ≤ B) (hc : c = 1 ∨ c = 2) :
    (¬ (((B.tdiv c - 4).tdiv 4) * 8 + 1 < 1 ∨
        ((((B.tdiv c - 4).tdiv 4) * 8 + 1 - 1).tdiv 2 + 4) * c ≠ B) ↔
      (c ∣ B ∧ 4 ≤ B / c ∧ 4 ∣ B / c)) ∧
    (¬ (((B.tdiv c - 4).tdiv 4) * 8 + 1 < 1 ∨
        ((((B.tdiv c - 4).tdiv 4) * 8 + 1 - 1).tdiv 2 + 4) * c ≠ B) →
      ((B.tdiv c - 4).tdiv 4) * 8 + 1 = 2 * (B / c) - 7) := by
  have hc0 : 0 ≤ c := by omega
  rw [Int.tdiv_eq_ediv hB hc0]
  have hq0 : 0 ≤ B / c := Int.ediv_nonneg hB hc0
  by_cases hq : 4 ≤ B / c
  · have e1 : (B / c - 4).tdiv 4 = (B / c - 4) / 4 :=
      Int.tdiv_eq_ediv (by omega) (by decide)
    rw [e1]
    have e2 : ((B / c - 4) / 4 * 8 + 1 - 1).tdiv 2 = ((B / c - 4) / 4 * 8 + 1 - 1) / 2 :=
      Int.tdiv_eq_ediv (by omega) (by decide)
    rw [e2]
    rcases hc with rfl | rfl
    · constructor <;> omega
    · constructor <;> omega
  · rw [tdiv_small_neg (B / c) hq0 (by omega)]
    by_cases hz : B / c = 0
    · rw [if_pos hz]
      constructor
      · constructor
        · intro h; exact absurd (Or.inl (by decide)) h
        · intro h; omega
      · intro h; exact absurd (Or.inl (by decide)) h
    · rw [if_neg hz]
      have e3 : ((0 : Int) * 8 + 1 - 1).tdiv 2 = 0 := by decide
      rw [e3]
      rcases hc with rfl | rfl
      · constructor
        · constructor
          · intro h; omega
          · intro h; omega
        · intro h; omega
      · constructor
        · constructor
          · intro h; omega
          · intro h; omega
        · intro h; omega

/-- The MS ADPCM conversion of a block of `B` bytes for `c` channels, and its check. -/
theorem msadpcm_check (B c : Int) (hB : 0 ≤ B) (hc : c = 1 ∨ c = 2) :
    (¬ ((B.tdiv c - 7) * 2 + 2 < 2 ∨
        (((B.tdiv c - 7) * 2 + 2 - 2).tdiv 2 + 7) * c ≠ B) ↔
      (c ∣ B ∧ 7 ≤ B / c)) ∧
    (B.tdiv c - 7) * 2 + 2 = 2 * (B / c) - 12 := by
  have hc0 : 0 ≤ c := by omega
  rw [Int.tdiv_eq_ediv hB hc0]
  refine ⟨?_, by omega⟩
  by_cases hq : 7 ≤ B / c
  · have e2 : ((B / c - 7) * 2 + 2 - 2).tdiv 2 = ((B / c - 7) * 2 + 2 - 2) / 2 :=
      Int.tdiv_eq_ediv (by omega) (by decide)
    rw [e2]
    rcases hc with rfl | rfl
    · constructor <;> omega
    · constructor <;> omega
  · constructor
    · intro h; exact absurd (Or.inl (by omega)) h
    · intro h; omega

end SoundFX

namespace SoundFX

theorem adpcmBlockAlign_ima4 (env : SoundEnv)
    (hI : env.chunkIter = true) (hS : env.chunkSizeOk = true) (hL : 14 ≤ env.datalen)
    (hD : env.chunkDataOk = true) (hc0 : env.sfinfo.channels ≠ 0) :
    adpcmBlockAlign env FormatType.IMA4 =
      some (if ((env.nBlockAlign.tdiv env.sfinfo.channels - 4).tdiv 4) * 8 + 1 < 1 ∨
              ((((env.nBlockAlign.tdiv env.sfinfo.channels - 4).tdiv 4) * 8 + 1 - 1).tdiv 2 + 4)
                * env.sfinfo.channels ≠ env.nBlockAlign
            then { sample_format := FormatType.Int16, byteblockalign := env.nBlockAlign,
                   splblockalign :=
                     ((env.nBlockAlign.tdiv env.sfinfo.channels - 4).tdiv 4) * 8 + 1 }
            else { sample_format := FormatType.IMA4, byteblockalign := env.nBlockAlign,
                   splblockalign :=
                     ((env.nBlockAlign.tdiv env.sfinfo.channels - 4).tdiv 4) * 8 + 1 }) := by
  unfold adpcmBlockAlign SoundEnv.nBlockAlign
  have h2 : ¬ (env.chunkIter = false ∨ env.chunkSizeOk = false ∨ env.datalen < 14) := by
    rw [hI, hS]
    simp only [Bool.true_eq_false, false_or]
    omega
  have h3 : ¬ (env.chunkDataOk = false) := by rw [hD]; decide
  simp only [true_or, if_true, if_neg h2, if_neg h3, if_neg hc0]
  rw [apply_ite some]

theorem adpcmBlockAlign_msadpcm (env : SoundEnv)
    (hI : env.chunkIter = true) (hS : env.chunkSizeOk = true) (hL : 14 ≤ env.datalen)
    (hD : env.chunkDataOk = true) (hc0 : env.sfinfo.channels ≠ 0) :
    adpcmBlockAlign env FormatType.MSADPCM =
      some (if (env.nBlockAlign.tdiv env.sfinfo.channels - 7) * 2 + 2 < 2 ∨
              (((env.nBlockAlign.tdiv env.sfinfo.channels - 7) * 2 + 2 - 2).tdiv 2 + 7)
                * env.sfinfo.channels ≠ env.nBlockAlign
            then { sample_format := FormatType.Int16, byteblockalign := env.nBlockAlign,
                   splblockalign := (env.nBlockAlign.tdiv env.sfinfo.channels - 7) * 2 + 2 }
            else { sample_format := FormatType.MSADPCM, byteblockalign := env.nBlockAlign,
                   splblockalign := (env.nBlockAlign.tdiv env.sfinfo.channels - 7) * 2 + 2 }) := by
  unfold adpcmBlockAlign SoundEnv.nBlockAlign
  have h2 : ¬ (env.chunkIter = false ∨ env.chunkSizeOk = false ∨ env.datalen < 14) := by
    rw [hI, hS]
    simp only [Bool.true_eq_false, false_or]
    omega
  have h3 : ¬ (env.chunkDataOk = false) := by rw [hD]; decide
  have h4 : ¬ (FormatType.MSADPCM = FormatType.IMA4) := by decide
  simp only [or_true, if_true, if_neg h2, if_neg h3, if_neg hc0, if_neg h4]
  rw [apply_ite some]

end SoundFX

namespace SoundFX

theorem pcmBlockAlign_int16 (channels : Int) (b s : Int) :
    pcmBlockAlign channels
        { sample_format := FormatType.Int16, byteblockalign := b, splblockalign := s } =
      { sample_format := FormatType.Int16, byteblockalign := wrapInt32 (channels * 2),
        splblockalign := 1 } := by
  unfold pcmBlockAlign
  rw [if_pos rfl]

theorem pcmBlockAlign_float (channels : Int) (b s : Int) :
    pcmBlockAlign channels
        { sample_format := FormatType.Float, byteblockalign := b, splblockalign := s } =
      { sample_format := FormatType.Float, byteblockalign := wrapInt32 (channels * 4),
        splblockalign := 1 } := by
  unfold pcmBlockAlign
  rw [if_neg (fun h => by cases h), if_pos rfl]

theorem pcmBlockAlign_adpcm (channels : Int) (l : SampleLayout)
    (h : l.sample_format = FormatType.IMA4 ∨ l.sample_format = FormatType.MSADPCM) :
    pcmBlockAlign channels l = l := by
  unfold pcmBlockAlign
  rcases h with h | h <;> rw [h] <;>
    rw [if_neg (fun h => by cases h), if_neg (fun h => by cases h)]

/-- C11: the ADPCM block-alignment check.  With the `fmt ` chunk read successfully,
`B = fmtbuf[12] | (fmtbuf[13] << 8)` (which lies in `0..65535`) and `c` channels, `c` in
`{1, 2}`: a file first taken as IMA4 keeps that sample type exactly when `c` divides `B`
and the block size per channel `b = B / c` is at least 4 and divisible by 4, and is
loaded as `Int16` otherwise; a file first taken as MS ADPCM keeps it exactly when `c`
divides `B` and `b ≥ 7`.  When the type is kept, `byteblockalign` is `B`, `splblockalign`
is `2 b - 7` for IMA4 and `2 b - 12` for MS ADPCM, and converting `splblockalign` back
gives `B` exactly. -/
theorem adpcm_block_alignment (env : SoundEnv)
    (hI : env.chunkIter = true) (hS : env.chunkSizeOk = true) (hL : 14 ≤ env.datalen)
    (hD : env.chunkDataOk = true)
    (hc : env.sfinfo.channels = 1 ∨ env.sfinfo.channels = 2) :
    (0 ≤ env.nBlockAlign ∧ env.nBlockAlign ≤ 65535) ∧
    (initialSampleFormat env = FormatType.IMA4 →
      ∃ l, chooseSampleLayout env = some l ∧
        (l.sample_format = FormatType.IMA4 ∨ l.sample_format = FormatType.Int16) ∧
        (l.sample_format = FormatType.IMA4 ↔
          env.sfinfo.channels ∣ env.nBlockAlign ∧
          4 ≤ env.nBlockAlign / env.sfinfo.channels ∧
          4 ∣ env.nBlockAlign / env.sfinfo.channels) ∧
        (l.sample_format = FormatType.IMA4 →
          l.byteblockalign = env.nBlockAlign ∧
          l.splblockalign = 2 * (env.nBlockAlign / env.sfinfo.channels) - 7 ∧
          ((l.splblockalign - 1).tdiv 2 + 4) * env.sfinfo.channels = env.nBlockAlign)) ∧
    (initialSampleFormat env = FormatType.MSADPCM →
      ∃ l, chooseSampleLayout env = some l ∧
        (l.sample_format = FormatType.MSADPCM ∨ l.sample_format = FormatType.Int16) ∧
        (l.sample_format = FormatType.MSADPCM ↔
          env.sfinfo.channels ∣ env.nBlockAlign ∧
          7 ≤ env.nBlockAlign / env.sfinfo.channels) ∧
        (l.sample_format = FormatType.MSADPCM →
          l.byteblockalign = env.nBlockAlign ∧
          l.splblockalign = 2 * (env.nBlockAlign / env.sfinfo.channels) - 12 ∧
          ((l.splblockalign - 2).tdiv 2 + 7) * env.sfinfo.channels = env.nBlockAlign)) := by
  have hB0 : 0 ≤ env.nBlockAlign := by
    unfold SoundEnv.nBlockAlign; omega
  have hB1 : env.nBlockAlign ≤ 65535 := fmt_blockalign_range env
  have hc0 : env.sfinfo.channels ≠ 0 := by omega
  refine ⟨⟨hB0, hB1⟩, ?_, ?_⟩
  · intro hinit
    obtain ⟨hiff, hspl⟩ := ima4_check env.nBlockAlign env.sfinfo.channels hB0 hc
    unfold chooseSampleLayout
    rw [hinit, adpcmBlockAlign_ima4 env hI hS hL hD hc0]
    by_cases hk : ((env.nBlockAlign.tdiv env.sfinfo.channels - 4).tdiv 4) * 8 + 1 < 1 ∨
        ((((env.nBlockAlign.tdiv env.sfinfo.channels - 4).tdiv 4) * 8 + 1 - 1).tdiv 2 + 4)
          * env.sfinfo.channels ≠ env.nBlockAlign
    · rw [if_pos hk, Option.map_some', pcmBlockAlign_int16]
      refine ⟨_, rfl, Or.inr rfl, ?_, ?_⟩
      · constructor
        · intro h; cases h
        · intro h; exact absurd hk (hiff.2 h)
      · intro h; cases h
    · rw [if_neg hk, Option.map_some', pcmBlockAlign_adpcm _ _ (Or.inl rfl)]
      refine ⟨_, rfl, Or.inl rfl, ?_, ?_⟩
      · exact ⟨fun _ => hiff.1 hk, fun _ => rfl⟩
      · intro _
        refine ⟨rfl, hspl hk, ?_⟩
        by_contra hne
        exact hk (Or.inr hne)
  · intro hinit
    obtain ⟨hiff, hspl⟩ := msadpcm_check env.nBlockAlign env.sfinfo.channels hB0 hc
    unfold chooseSampleLayout
    rw [hinit, adpcmBlockAlign_msadpcm env hI hS hL hD hc0]
    by_cases hk : (env.nBlockAlign.tdiv env.sfinfo.channels - 7) * 2 + 2 < 2 ∨
        (((env.nBlockAlign.tdiv env.sfinfo.channels - 7) * 2 + 2 - 2).tdiv 2 + 7)
          * env.sfinfo.channels ≠ env.nBlockAlign
    · rw [if_pos hk, Option.map_some', pcmBlockAlign_int16]
      refine ⟨_, rfl, Or.inr rfl, ?_, ?_⟩
      · constructor
        · intro h; cases h
        · intro h; exact absurd hk (hiff.2 h)
      · intro h; cases h
    · rw [if_neg hk, Option.map_some', pcmBlockAlign_adpcm _ _ (Or.inr rfl)]
      refine ⟨_, rfl, Or.inl rfl, ?_, ?_⟩
      · exact ⟨fun _ => hiff.1 hk, fun _ => rfl⟩
      · intro _
        refine ⟨rfl, hspl, ?_⟩
        by_contra hne
        exact hk (Or.inr hne)

/-- Witness for C11: a stereo IMA ADPCM file with `nBlockAlign = 72`, that is 36 bytes
per channel and 65 samples per block. -/
theorem adpcm_block_alignment_witness :
    ∃ l, chooseSampleLayout stereoImaEnv = some l ∧
      (l.sample_format = FormatType.IMA4 ∨ l.sample_format = FormatType.Int16) ∧
      (l.sample_format = FormatType.IMA4 ↔
        stereoImaEnv.sfinfo.channels ∣ stereoImaEnv.nBlockAlign ∧
        4 ≤ stereoImaEnv.nBlockAlign / stereoImaEnv.sfinfo.channels ∧
        4 ∣ stereoImaEnv.nBlockAlign / stereoImaEnv.sfinfo.channels) ∧
      (l.sample_format = FormatType.IMA4 →
        l.byteblockalign = stereoImaEnv.nBlockAlign ∧
        l.splblockalign = 2 * (stereoImaEnv.nBlockAlign / stereoImaEnv.sfinfo.channels) - 7 ∧
        ((l.splblockalign - 1).tdiv 2 + 4) * stereoImaEnv.sfinfo.channels
          = stereoImaEnv.nBlockAlign) :=
  (adpcm_block_alignment stereoImaEnv rfl rfl (by decide) rfl (Or.inr rfl)).2.1 (by decide)

end SoundFX

namespace SoundFX

/-! ## The buffer-size guard: claim C12 -/

theorem adpcmBlockAlign_kept (env : SoundEnv) (sf : FormatType) (l : SampleLayout)
    (h : adpcmBlockAlign env sf = some l) :
    (l.sample_format = FormatType.IMA4 →
      1 ≤ l.splblockalign ∧
      ((l.splblockalign - 1).tdiv 2 + 4) * env.sfinfo.channels = l.byteblockalign) ∧
    (l.sample_format = FormatType.MSADPCM →
      2 ≤ l.splblockalign ∧
      ((l.splblockalign - 2).tdiv 2 + 7) * env.sfinfo.channels = l.byteblockalign) := by
  unfold adpcmBlockAlign at h
  simp only [] at h
  repeat' split at h
  all_goals first
    | exact Option.noConfusion h
    | (cases h
       constructor
       · intro hx
         first
           | exact absurd hx (by decide)
           | (rename_i hk; constructor
              · by_contra hlt; exact hk (Or.inl (by simp only [] at hlt ⊢; omega))
              · by_contra hne; exact hk (Or.inr hne))
           | simp_all
       · intro hx
         first
           | exact absurd hx (by decide)
           | (rename_i hk; constructor
              · by_contra hlt; exact hk (Or.inl (by simp only [] at hlt ⊢; omega))
              · by_contra hne; exact hk (Or.inr hne))
           | simp_all)

end SoundFX

namespace SoundFX

theorem wrapInt32_small (x : Int) (h0 : 0 ≤ x) (h1 : x ≤ 2147483647) : wrapInt32 x = x := by
  unfold wrapInt32
  rw [SnakeLadder.toUInt_small x h0 (by omega), SnakeLadder.toInt_small _ (by omega)]
  omega

/-- The layout `LoadSound` has settled on when it reaches the size check. -/
theorem layout_at_size_check (env : SoundEnv) (l : SampleLayout)
    (hch : 1 ≤ env.sfinfo.channels) (hl : chooseSampleLayout env = some l)
    (hfmt : detectFormat env.sfinfo.channels l.sample_format env.ambisonic ≠ ALenum.AL_NONE) :
    1 ≤ l.splblockalign ∧ 1 ≤ l.byteblockalign ∧
    (l.sample_format = FormatType.Int16 →
      l.splblockalign = 1 ∧ l.byteblockalign = 2 * env.sfinfo.channels) ∧
    (l.sample_format = FormatType.Float →
      l.splblockalign = 1 ∧ l.byteblockalign = 4 * env.sfinfo.channels) := by
  have hc4 : env.sfinfo.channels ≤ 4 := by
    by_contra hgt
    exact hfmt (detectFormat_other _ _ _ (by omega) (by omega) (by omega) (by omega))
  have hl' := hl
  unfold chooseSampleLayout at hl'
  cases ha : adpcmBlockAlign env (initialSampleFormat env) with
  | none => rw [ha] at hl'; cases hl'
  | some l0 =>
    rw [ha, Option.map_some'] at hl'
    have hEq : pcmBlockAlign env.sfinfo.channels l0 = l := Option.some.inj hl'
    obtain ⟨hkI, hkM⟩ := adpcmBlockAlign_kept env _ l0 ha
    obtain ⟨sf0, b0, s0⟩ := l0
    cases sf0
    · rw [pcmBlockAlign_int16] at hEq
      subst hEq
      have hw : wrapInt32 (env.sfinfo.channels * 2) = 2 * env.sfinfo.channels := by
        rw [wrapInt32_small _ (by omega) (by omega)]; omega
      rw [hw]
      refine ⟨?_, ?_, ?_, ?_⟩
      · show (1 : Int) ≤ 1
        omega
      · show 1 ≤ 2 * env.sfinfo.channels
        omega
      · intro _; exact ⟨rfl, rfl⟩
      · intro h; cases h
    · rw [pcmBlockAlign_float] at hEq
      subst hEq
      have hw : wrapInt32 (env.sfinfo.channels * 4) = 4 * env.sfinfo.channels := by
        rw [wrapInt32_small _ (by omega) (by omega)]; omega
      rw [hw]
      refine ⟨?_, ?_, ?_, ?_⟩
      · show (1 : Int) ≤ 1
        omega
      · show 1 ≤ 4 * env.sfinfo.channels
        omega
      · intro h; cases h
      · intro _; exact ⟨rfl, rfl⟩
    · rw [pcmBlockAlign_adpcm _ _ (Or.inl rfl)] at hEq
      subst hEq
      have hc2 := (chooseSampleLayout_adpcm env _ hl (Or.inl rfl)).1
      obtain ⟨hs, hb⟩ := hkI rfl
      simp only [] at hs hb ⊢
      have hk : 0 ≤ (s0 - 1).tdiv 2 := Int.tdiv_nonneg (by omega) (by decide)
      have hc : env.sfinfo.channels = 1 ∨ env.sfinfo.channels = 2 := by omega
      refine ⟨hs, ?_, ?_, ?_⟩
      · rcases hc with hc | hc <;> rw [hc] at hb <;> omega
      · intro h; cases h
      · intro h; cases h
    · rw [pcmBlockAlign_adpcm _ _ (Or.inr rfl)] at hEq
      subst hEq
      have hc2 := (chooseSampleLayout_adpcm env _ hl (Or.inr rfl)).1
      obtain ⟨hs, hb⟩ := hkM rfl
      simp only [] at hs hb ⊢
      have hk : 0 ≤ (s0 - 2).tdiv 2 := Int.tdiv_nonneg (by omega) (by decide)
      have hc : env.sfinfo.channels = 1 ∨ env.sfinfo.channels = 2 := by omega
      refine ⟨by omega, ?_, ?_, ?_⟩
      · rcases hc with hc | hc <;> rw [hc] at hb <;> omega
      · intro h; cases h
      · intro h; cases h

end SoundFX

namespace SoundFX

theorem size_guard_arith (frames spl byte : Int) (hf : 1 ≤ frames) (hs : 1 ≤ spl)
    (hb : 1 ≤ byte) (h : ¬ (frames.tdiv spl > INT_MAX.tdiv byte)) :
    ∀ nf : Int, nf ≤ frames →
      nf.tdiv spl * byte ≤ INT_MAX ∧
      (1 ≤ nf → 0 ≤ nf.tdiv spl * byte ∧
        wrapInt32 (nf.tdiv spl * byte) = nf.tdiv spl * byte) := by
  unfold INT_MAX at h ⊢
  rw [Int.tdiv_eq_ediv (by omega) (by omega),
    Int.tdiv_eq_ediv (by decide) (by omega)] at h
  have h1 : frames / spl ≤ 2147483647 / byte := by omega
  have h2 : 2147483647 / byte * byte ≤ 2147483647 := Int.ediv_mul_le _ (by omega)
  have hpos : ∀ nf : Int, 0 ≤ nf → nf ≤ frames →
      0 ≤ nf.tdiv spl * byte ∧ nf.tdiv spl * byte ≤ 2147483647 := by
    intro nf h0 hle
    rw [Int.tdiv_eq_ediv h0 (by omega)]
    have h3 : nf / spl ≤ frames / spl := Int.ediv_le_ediv (by omega) hle
    have h4 : 0 ≤ nf / spl := Int.ediv_nonneg h0 (by omega)
    have h5 : nf / spl * byte ≤ 2147483647 / byte * byte :=
      mul_le_mul_of_nonneg_right (by omega) (by omega)
    have h6 : 0 ≤ nf / spl * byte := mul_nonneg h4 (by omega)
    omega
  intro nf hle
  by_cases h0 : 0 ≤ nf
  · obtain ⟨ha, hb2⟩ := hpos nf h0 hle
    exact ⟨hb2, fun _ => ⟨ha, wrapInt32_small _ ha hb2⟩⟩
  · have hneg := Int.neg_tdiv (-nf) spl
    rw [neg_neg] at hneg
    have h7 : 0 ≤ (-nf).tdiv spl := Int.tdiv_nonneg (by omega) (by omega)
    have h8 : nf.tdiv spl * byte ≤ 0 :=
      mul_nonpos_of_nonpos_of_nonneg (by omega) (by omega)
    exact ⟨by omega, fun h => by omega⟩

/-- C12: the buffer-size guard.  For a file with `frames ≥ 1` and `channels ≥ 1` whose
format was found, so that `LoadSound` goes on to the size check: `splblockalign ≥ 1` and
`byteblockalign ≥ 1` (no division by zero; 1 and `2 * channels` for `Int16`, 1 and
`4 * channels` for `Float`); the file is rejected as "Too many samples" exactly when
`frames / splblockalign > INT_MAX / byteblockalign`; and when it is not rejected, the
decode buffer size `frames / splblockalign * byteblockalign` is at most `INT_MAX`, and so
is `num_frames / splblockalign * byteblockalign` for every `num_frames ≤ frames`, which
for `num_frames ≥ 1` is also non-negative, so that the conversion to the 32-bit `ALsizei`
keeps the value. -/
theorem buffer_size_guard (env : SoundEnv) (l : SampleLayout) (format : ALenum)
    (hfr : 1 ≤ env.sfinfo.frames) (hch : 1 ≤ env.sfinfo.channels)
    (hl : chooseSampleLayout env = some l)
    (hfmt : detectFormat env.sfinfo.channels l.sample_format env.ambisonic = format)
    (hfound : format ≠ ALenum.AL_NONE) :
    (1 ≤ l.splblockalign ∧ 1 ≤ l.byteblockalign) ∧
    (l.sample_format = FormatType.Int16 →
      l.splblockalign = 1 ∧ l.byteblockalign = 2 * env.sfinfo.channels) ∧
    (l.sample_format = FormatType.Float →
      l.splblockalign = 1 ∧ l.byteblockalign = 4 * env.sfinfo.channels) ∧
    (env.opened = true → LoadSound env = decodeAndBuffer env l format) ∧
    (∃ r, decodeAndBuffer env l format = some r) ∧
    (decodeAndBuffer env l format = some LoadResult.tooManySamples ↔
      env.sfinfo.frames.tdiv l.splblockalign > INT_MAX.tdiv l.byteblockalign) ∧
    (decodeAndBuffer env l format ≠ some LoadResult.tooManySamples →
      env.sfinfo.frames.tdiv l.splblockalign * l.byteblockalign ≤ INT_MAX ∧
      ∀ num_frames : Int, num_frames ≤ env.sfinfo.frames →
        num_frames.tdiv l.splblockalign * l.byteblockalign ≤ INT_MAX ∧
        (1 ≤ num_frames →
          0 ≤ num_frames.tdiv l.splblockalign * l.byteblockalign ∧
          wrapInt32 (num_frames.tdiv l.splblockalign * l.byteblockalign) =
            num_frames.tdiv l.splblockalign * l.byteblockalign)) := by
  subst hfmt
  obtain ⟨hs, hb, hI, hF⟩ := layout_at_size_check env l hch hl hfound
  have hz : ¬ (l.splblockalign = 0 ∨ l.byteblockalign = 0) := by omega
  have hiff : decodeAndBuffer env l
        (detectFormat env.sfinfo.channels l.sample_format env.ambisonic) =
          some LoadResult.tooManySamples ↔
      env.sfinfo.frames.tdiv l.splblockalign > INT_MAX.tdiv l.byteblockalign := by
    unfold decodeAndBuffer
    rw [if_neg hz]
    by_cases hgt : env.sfinfo.frames.tdiv l.splblockalign > INT_MAX.tdiv l.byteblockalign
    · rw [if_pos hgt]
      exact ⟨fun _ => hgt, fun _ => rfl⟩
    · rw [if_neg hgt]
      simp only []
      constructor
      · intro h
        repeat' split at h
        all_goals cases h
      · intro h; exact absurd h hgt
  refine ⟨⟨hs, hb⟩, hI, hF, ?_, ?_, hiff, ?_⟩
  · intro ho
    unfold LoadSound
    rw [if_neg (by rw [ho]; decide), if_neg (by omega), hl]
    simp only [if_neg hfound]
  · unfold decodeAndBuffer
    rw [if_neg hz]
    simp only []
    repeat' split
    all_goals exact ⟨_, rfl⟩
  · intro hne
    have hgt : ¬ (env.sfinfo.frames.tdiv l.splblockalign > INT_MAX.tdiv l.byteblockalign) :=
      fun h => hne (hiff.2 h)
    have hall := size_guard_arith env.sfinfo.frames l.splblockalign l.byteblockalign
      hfr hs hb hgt
    exact ⟨(hall env.sfinfo.frames (le_refl _)).1, hall⟩

/-- Witness for C12: the mono 16-bit PCM file of 1000 frames. -/
theorem buffer_size_guard_witness :
    (1 : Int) ≤ 1 ∧ (1 : Int) ≤ 2 ∧
    LoadSound monoPcmEnv = decodeAndBuffer monoPcmEnv
      { sample_format := FormatType.Int16, byteblockalign := 2, splblockalign := 1 }
      ALenum.AL_FORMAT_MONO16 :=
  have h := buffer_size_guard monoPcmEnv
    { sample_format := FormatType.Int16, byteblockalign := 2, splblockalign := 1 }
    ALenum.AL_FORMAT_MONO16 (by decide) (by decide) (by decide) (by decide) (by decide)
  ⟨h.1.1, h.1.2, h.2.2.2.1 rfl⟩

end SoundFX
